import Mathlib

/-!
Verification of the Content Originality Engine of the cine-craft repository.

The TypeScript sources are shallowly embedded: strings are lists of Unicode
scalar values (`Str`), JavaScript numbers are modelled by `JsNum` (a rational
together with the three non-finite values NaN and plus or minus infinity),
stateful services are modelled by explicit state passing, and the sources of
nondeterminism (Date.now, Math.random) are modelled by injected supplies.
-/

set_option autoImplicit false
set_option maxRecDepth 40000

namespace CineCraft

/-- Decidable equality of Except values, needed to evaluate the embedded
ensureUniqueness on concrete inputs. -/
instance {ε α : Type} [DecidableEq ε] [DecidableEq α] : DecidableEq (Except ε α) := fun x y =>
  match x, y with
  | Except.ok u, Except.ok v =>
      if h : u = v then isTrue (by rw [h]) else isFalse (by intro hc; cases hc; exact h rfl)
  | Except.ok _, Except.error _ => isFalse (by intro hc; cases hc)
  | Except.error _, Except.ok _ => isFalse (by intro hc; cases hc)
  | Except.error u, Except.error v =>
      if h : u = v then isTrue (by rw [h]) else isFalse (by intro hc; cases hc; exact h rfl)

/-! ### JavaScript numbers

Division of two counts can produce NaN (0/0) or infinity (n/0) in the
TypeScript sources, and those values then flow through max, round and
comparisons.  `JsNum` models an IEEE double restricted to exact rational
values plus the non-finite values; all arithmetic appearing in the embedded
code stays exact on rationals, so no rounding model is needed.  Negative
zero never arises in the embedded code (all divisors are counts). -/
inductive JsNum : Type
  | num (q : ℚ)
  | nan
  | posInf
  | negInf
deriving DecidableEq, Repr

namespace JsNum

/-- Addition of JavaScript numbers; NaN propagates, opposite infinities give NaN. -/
def jsAdd : JsNum → JsNum → JsNum
  | num a, num b => num (a + b)
  | nan, _ => nan
  | _, nan => nan
  | posInf, negInf => nan
  | negInf, posInf => nan
  | posInf, _ => posInf
  | _, posInf => posInf
  | negInf, _ => negInf
  | _, negInf => negInf

/-- Subtraction of JavaScript numbers. -/
def jsSub : JsNum → JsNum → JsNum
  | num a, num b => num (a - b)
  | nan, _ => nan
  | _, nan => nan
  | posInf, posInf => nan
  | negInf, negInf => nan
  | posInf, _ => posInf
  | negInf, _ => negInf
  | num _, posInf => negInf
  | num _, negInf => posInf

/-- Multiplication of JavaScript numbers; zero times infinity is NaN. -/
def jsMul : JsNum → JsNum → JsNum
  | num a, num b => num (a * b)
  | nan, _ => nan
  | _, nan => nan
  | posInf, posInf => posInf
  | posInf, negInf => negInf
  | negInf, posInf => negInf
  | negInf, negInf => posInf
  | posInf, num b => if b = 0 then nan else if 0 < b then posInf else negInf
  | num a, posInf => if a = 0 then nan else if 0 < a then posInf else negInf
  | negInf, num b => if b = 0 then nan else if 0 < b then negInf else posInf
  | num a, negInf => if a = 0 then nan else if 0 < a then negInf else posInf

/-- Division of JavaScript numbers; 0/0 is NaN and n/0 is a signed infinity
(the embedded code never divides by a negative zero). -/
def jsDiv : JsNum → JsNum → JsNum
  | num a, num b =>
      if b = 0 then (if a = 0 then nan else if 0 < a then posInf else negInf)
      else num (a / b)
  | nan, _ => nan
  | _, nan => nan
  | posInf, posInf => nan
  | posInf, negInf => nan
  | negInf, posInf => nan
  | negInf, negInf => nan
  | posInf, num b => if 0 ≤ b then posInf else negInf
  | negInf, num b => if 0 ≤ b then negInf else posInf
  | num _, posInf => num 0
  | num _, negInf => num 0

/-- Model of Math.max on two JavaScript numbers: NaN if either argument is NaN. -/
def jsMax : JsNum → JsNum → JsNum
  | num a, num b => num (max a b)
  | nan, _ => nan
  | _, nan => nan
  | posInf, _ => posInf
  | _, posInf => posInf
  | negInf, b => b
  | a, negInf => a

/-- Model of Math.round: round half up; NaN and infinities are fixed points. -/
def jsRound : JsNum → JsNum
  | num a => num ⌊a + 1 / 2⌋
  | nan => nan
  | posInf => posInf
  | negInf => negInf

/-- Model of the comparison x >= t for a rational literal t; false on NaN. -/
def jsGe : JsNum → ℚ → Bool
  | num a, t => t ≤ a
  | nan, _ => false
  | posInf, _ => true
  | negInf, _ => false

/-- Model of the comparison x < t for a rational literal t; false on NaN. -/
def jsLt : JsNum → ℚ → Bool
  | num a, t => a < t
  | nan, _ => false
  | posInf, _ => false
  | negInf, _ => true

end JsNum

/-! ### Strings and character classes -/

/-- Text is modelled as the list of Unicode scalar values of a JavaScript
string.  (The sources only ever contain characters of the Basic Multilingual
Plane, where scalar values and UTF-16 code units coincide.) -/
abbrev Str := List Char

/-- Scalar values matched by the JavaScript regular-expression class backslash-s,
which is also exactly the set of characters removed by String.prototype.trim. -/
def jsSpaceCodes : List ℕ :=
  [9, 10, 11, 12, 13, 32, 160, 5760,
   8192, 8193, 8194, 8195, 8196, 8197, 8198, 8199, 8200, 8201, 8202,
   8232, 8233, 8239, 8287, 12288, 65279]

/-- Whether a character is JavaScript whitespace. -/
def isJsSpace (c : Char) : Bool := decide (c.toNat ∈ jsSpaceCodes)

/-- Model of String.prototype.toLowerCase restricted to ASCII letters.  All
non-ASCII text in the repository is CJK, which is caseless, so the restriction
is faithful on every string the engine handles. -/
def jsToLower (c : Char) : Char :=
  if 65 ≤ c.toNat ∧ c.toNat ≤ 90 then Char.ofNat (c.toNat + 32) else c

/-- Model of String.prototype.trim: strip whitespace from both ends. -/
def jsTrim (s : Str) : Str :=
  ((s.dropWhile isJsSpace).reverse.dropWhile isJsSpace).reverse

/-! ### Data model -/

/-- Segment kind of a script segment. -/
inductive SegType : Type
  | narration
  | dialogue
  | description
deriving DecidableEq, Repr

/-- Rendering of a segment type used in structural signatures. -/
def SegType.asStr : SegType → Str
  | narration => ("narration").data
  | dialogue => ("dialogue").data
  | description => ("description").data

/-- Embedding of the ScriptSegment interface. -/
structure ScriptSegment : Type where
  id : Str
  startTime : ℚ
  endTime : ℚ
  content : Str
  type : SegType
deriving DecidableEq, Repr

/-- Embedding of the ScriptData interface (the fields the engine reads). -/
structure ScriptData : Type where
  id : Str
  content : Str
  segments : List ScriptSegment
  updatedAt : Str
deriving DecidableEq, Repr

namespace Detectors

/-- Punctuation stripped by normalizeText in the dedup detectors module. -/
def strippedPunct : List Char :=
  ['，', '。', '！', '？', '、', '；', '：', '“', '”', '‘', '’', '（', '）', '【', '】']

/-- Whether normalizeText removes this character (whitespace or listed punctuation). -/
def isStripChar (c : Char) : Bool := isJsSpace c || decide (c ∈ strippedPunct)

/-- Embedding of normalizeText from the dedup detectors module: lower-case,
delete whitespace and the listed punctuation, then trim. -/
def normalizeText (text : Str) : Str :=
  jsTrim ((text.map jsToLower).filter (fun c => !(isStripChar c)))

end Detectors

/-! ### Basic lemmas about the character utilities -/

theorem toNat_ofNat_valid {n : ℕ} (h : n.isValidChar) : (Char.ofNat n).toNat = n := by
  unfold Char.ofNat
  rw [dif_pos h]
  simp [Char.ofNatAux, Char.toNat, UInt32.toNat]

theorem jsToLower_idem (c : Char) : jsToLower (jsToLower c) = jsToLower c := by
  by_cases h : 65 ≤ c.toNat ∧ c.toNat ≤ 90
  · have h1 : jsToLower c = Char.ofNat (c.toNat + 32) := by
      unfold jsToLower
      rw [if_pos h]
    have ht : (Char.ofNat (c.toNat + 32)).toNat = c.toNat + 32 :=
      toNat_ofNat_valid (Or.inl (by omega))
    rw [h1]
    unfold jsToLower
    rw [if_neg (by rw [ht]; omega)]
  · have h1 : jsToLower c = c := by
      unfold jsToLower
      rw [if_neg h]
    rw [h1, h1]

/-- Characters surviving the strip filter are in particular not whitespace. -/
theorem not_space_of_not_strip {c : Char} (h : Detectors.isStripChar c = false) :
    isJsSpace c = false := by
  unfold Detectors.isStripChar at h
  cases hs : isJsSpace c with
  | false => rfl
  | true => rw [hs] at h; simp at h

theorem dropWhile_eq_self_of_forall {p : Char → Bool} {l : Str}
    (h : ∀ c ∈ l, p c = false) : l.dropWhile p = l := by
  cases l with
  | nil => rfl
  | cons a l => simp [List.dropWhile, h a (by simp)]

theorem jsTrim_eq_self_of_no_space {l : Str}
    (h : ∀ c ∈ l, isJsSpace c = false) : jsTrim l = l := by
  unfold jsTrim
  rw [dropWhile_eq_self_of_forall h,
      dropWhile_eq_self_of_forall (fun c hc => h c (List.mem_reverse.mp hc)),
      List.reverse_reverse]

theorem mem_of_mem_jsTrim {c : Char} {l : Str} (h : c ∈ jsTrim l) : c ∈ l := by
  unfold jsTrim at h
  rw [List.mem_reverse] at h
  have h1 := List.dropWhile_sublist (l := (l.dropWhile isJsSpace).reverse) (p := isJsSpace)
  have h2 := h1.mem h
  rw [List.mem_reverse] at h2
  exact (List.dropWhile_sublist (l := l) (p := isJsSpace)).mem h2

/-- Auxiliary fact for claim C9: normalizeText is idempotent. -/
theorem normalizeText_idem_aux (x : Str) :
    Detectors.normalizeText (Detectors.normalizeText x) = Detectors.normalizeText x := by
  have hmemInner : ∀ c ∈ Detectors.normalizeText x,
      c ∈ (x.map jsToLower).filter (fun c => !(Detectors.isStripChar c)) := by
    intro c hc
    exact mem_of_mem_jsTrim hc
  have hlower : ∀ c ∈ Detectors.normalizeText x, jsToLower c = c := by
    intro c hc
    have h2 : c ∈ x.map jsToLower :=
      (List.filter_sublist (l := x.map jsToLower)).mem (hmemInner c hc)
    obtain ⟨a, _, rfl⟩ := List.mem_map.mp h2
    exact jsToLower_idem a
  have hstrip : ∀ c ∈ Detectors.normalizeText x, Detectors.isStripChar c = false := by
    intro c hc
    have h2 := List.of_mem_filter (hmemInner c hc)
    simpa using h2
  calc Detectors.normalizeText (Detectors.normalizeText x)
      = jsTrim (((Detectors.normalizeText x).map jsToLower).filter
          (fun c => !(Detectors.isStripChar c))) := rfl
    _ = jsTrim ((Detectors.normalizeText x).filter
          (fun c => !(Detectors.isStripChar c))) := by
          rw [List.map_congr_left hlower, List.map_id']
    _ = jsTrim (Detectors.normalizeText x) := by
          rw [List.filter_eq_self.mpr (by intro c hc; simp [hstrip c hc])]
    _ = Detectors.normalizeText x :=
          jsTrim_eq_self_of_no_space
            (fun c hc => not_space_of_not_strip (hstrip c hc))

/-! ### Embedding of the dynamic-programming Levenshtein distance

The TypeScript levenshteinDistance builds the full prefix-distance matrix row
by row.  The embedding keeps one row at a time: buildRow computes row i from
row i-1 walking the second string, and runRows iterates over the first
string. -/

namespace Detectors

/-- Substitution cost used in the inner loop of levenshteinDistance. -/
def subCost (x y : Char) : ℕ := if x = y then 0 else 1

/-- Computation of the tail of row i of the distance matrix from row i-1.
The arguments are the value just written at the current row (matrix at i,
j-1), the suffix of the previous row starting at column j-1, and the suffix
of the second string starting at position j-1. -/
def buildRow (c : Char) : ℕ → List ℕ → Str → List ℕ
  | left, diag :: above :: ptail, y :: ys =>
      (min (above + 1) (min (left + 1) (diag + subCost c y))) ::
        buildRow c (min (above + 1) (min (left + 1) (diag + subCost c y)))
          (above :: ptail) ys
  | _, _, _ => []

/-- Iteration of the row computation over the characters of the first string;
the counter argument is the current row index. -/
def runRows (str2 : Str) : List ℕ → Str → ℕ → List ℕ
  | prev, [], _ => prev
  | prev, c :: cs, i => runRows str2 (i :: buildRow c i prev str2) cs (i + 1)

/-- Embedding of levenshteinDistance: the bottom-right entry of the
prefix-distance matrix, with row 0 being 0..length of the second string. -/
def levenshteinDistance (str1 str2 : Str) : ℕ :=
  (runRows str2 (List.range (str2.length + 1)) str1 1).getD str2.length 0

/-- Embedding of calculateSimilarity: one minus the normalized edit distance;
0/0 (both strings normalizing to empty) yields NaN exactly as in JavaScript. -/
def calculateSimilarity (text1 text2 : Str) : JsNum :=
  JsNum.jsSub (JsNum.num 1)
    (JsNum.jsDiv (JsNum.num (levenshteinDistance (normalizeText text1) (normalizeText text2)))
      (JsNum.num (max (normalizeText text1).length (normalizeText text2).length)))

end Detectors

/-! ### The classic Levenshtein distance and the correctness of the matrix -/

/-- The textbook Levenshtein distance with unit costs, from Mathlib. -/
def classicLev (xs ys : Str) : ℕ := levenshtein Levenshtein.defaultCost xs ys

theorem classicLev_nil_left (ys : Str) : classicLev [] ys = ys.length := by
  induction ys with
  | nil => simp [classicLev]
  | cons y ys ih => simp [classicLev] at ih ⊢; omega

theorem classicLev_nil_right (xs : Str) : classicLev xs [] = xs.length := by
  induction xs with
  | nil => simp [classicLev]
  | cons x xs ih => simp [classicLev] at ih ⊢; omega

theorem classicLev_cons_cons (x : Char) (xs : Str) (y : Char) (ys : Str) :
    classicLev (x :: xs) (y :: ys) =
      min (1 + classicLev xs (y :: ys))
        (min (1 + classicLev (x :: xs) ys)
          (Detectors.subCost x y + classicLev xs ys)) := by
  simp [classicLev, levenshtein_cons_cons, Detectors.subCost]

theorem minAddR (a b c : ℕ) : min a b + c = min (a + c) (b + c) := by omega

theorem minAddL (a b c : ℕ) : c + min a b = min (c + a) (c + b) := by omega

/-- Back-face recurrence of the Levenshtein distance: appending one character
to each argument.  This is the recurrence the prefix matrix actually uses. -/
theorem classicLev_append_append (xs : Str) (x y : Char) :
    ∀ ys : Str, classicLev (xs ++ [x]) (ys ++ [y]) =
      min (classicLev xs (ys ++ [y]) + 1)
        (min (classicLev (xs ++ [x]) ys + 1)
          (classicLev xs ys + Detectors.subCost x y)) := by
  induction xs with
  | nil =>
    intro ys
    induction ys with
    | nil =>
      simp only [List.nil_append, classicLev_cons_cons, classicLev_nil_left,
        classicLev_nil_right, List.length_cons, List.length_nil, Detectors.subCost]
      split_ifs <;> omega
    | cons b ys2 ihy =>
      simp only [List.nil_append] at ihy ⊢
      rw [List.cons_append, classicLev_cons_cons, ihy, classicLev_cons_cons]
      simp only [classicLev_nil_left, classicLev_nil_right, List.length_append,
        List.length_cons, List.length_nil, Detectors.subCost]
      split_ifs <;> omega
  | cons a xs2 ihx =>
    intro ys
    induction ys with
    | nil =>
      have h1 := ihx []
      simp only [List.nil_append] at h1
      simp only [List.cons_append, List.nil_append]
      rw [classicLev_cons_cons a (xs2 ++ [x]) y [], h1,
        classicLev_cons_cons a xs2 y []]
      simp only [classicLev_nil_left, classicLev_nil_right, List.length_append,
        List.length_cons, List.length_nil]
      omega
    | cons b ys2 ihy =>
      have h1 := ihx (b :: ys2)
      have h3 := ihx ys2
      simp only [List.cons_append] at h1 ihy ⊢
      rw [classicLev_cons_cons a (xs2 ++ [x]) b (ys2 ++ [y]), h1, ihy, h3]
      rw [classicLev_cons_cons a xs2 b (ys2 ++ [y]),
        classicLev_cons_cons a (xs2 ++ [x]) b ys2,
        classicLev_cons_cons a xs2 b ys2]
      generalize classicLev xs2 (b :: (ys2 ++ [y])) = A1
      generalize classicLev (xs2 ++ [x]) (b :: ys2) = A2
      generalize classicLev xs2 (b :: ys2) = A3
      generalize classicLev (a :: xs2) (ys2 ++ [y]) = A4
      generalize classicLev (a :: (xs2 ++ [x])) ys2 = A5
      generalize classicLev (a :: xs2) ys2 = A6
      generalize classicLev xs2 (ys2 ++ [y]) = A7
      generalize classicLev (xs2 ++ [x]) ys2 = A8
      generalize classicLev xs2 ys2 = A9
      generalize Detectors.subCost x y = B1
      generalize Detectors.subCost a b = B2
      simp only [minAddR, minAddL, Nat.add_assoc]
      ac_rfl

/-- Row of prefix distances from the first string xs to every prefix of
u ++ ys extending u; the abstract description of one matrix row. -/
def rowFor (xs : Str) : Str → Str → List ℕ
  | u, [] => [classicLev xs u]
  | u, y :: ys => classicLev xs u :: rowFor xs (u ++ [y]) ys

theorem buildRow_spec_cons (xs : Str) (c : Char) :
    ∀ (ys u : Str) (y : Char),
      Detectors.buildRow c (classicLev (xs ++ [c]) u) (rowFor xs u (y :: ys)) (y :: ys)
      = rowFor (xs ++ [c]) (u ++ [y]) ys := by
  intro ys
  induction ys with
  | nil =>
    intro u y
    simp only [rowFor, Detectors.buildRow]
    rw [classicLev_append_append xs c y u]
  | cons z ys2 ih =>
    intro u y
    simp only [rowFor, Detectors.buildRow]
    rw [← classicLev_append_append xs c y u]
    rw [show Detectors.buildRow c (classicLev (xs ++ [c]) (u ++ [y]))
          (classicLev xs (u ++ [y]) :: rowFor xs ((u ++ [y]) ++ [z]) ys2) (z :: ys2)
          = Detectors.buildRow c (classicLev (xs ++ [c]) (u ++ [y]))
              (rowFor xs (u ++ [y]) (z :: ys2)) (z :: ys2) from rfl]
    rw [ih (u ++ [y]) z]

theorem runRows_spec (s2 : Str) :
    ∀ (cs u : Str),
      Detectors.runRows s2 (rowFor u [] s2) cs (u.length + 1)
      = rowFor (u ++ cs) [] s2 := by
  intro cs
  induction cs with
  | nil =>
    intro u
    simp [Detectors.runRows]
  | cons c cs2 ih =>
    intro u
    have hrow : (u.length + 1) :: Detectors.buildRow c (u.length + 1) (rowFor u [] s2) s2
        = rowFor (u ++ [c]) [] s2 := by
      have hlen : classicLev (u ++ [c]) [] = u.length + 1 := by
        rw [classicLev_nil_right]
        simp
      cases s2 with
      | nil =>
        simp [rowFor, Detectors.buildRow, hlen.symm]
      | cons y ys2 =>
        rw [show rowFor (u ++ [c]) [] (y :: ys2)
              = classicLev (u ++ [c]) [] :: rowFor (u ++ [c]) ([] ++ [y]) ys2 from rfl]
        rw [hlen, ← hlen]
        rw [show Detectors.buildRow c (classicLev (u ++ [c]) [])
              (rowFor u [] (y :: ys2)) (y :: ys2)
              = rowFor (u ++ [c]) ([] ++ [y]) ys2 from buildRow_spec_cons u c ys2 [] y]
    rw [show Detectors.runRows s2 (rowFor u [] s2) (c :: cs2) (u.length + 1)
          = Detectors.runRows s2
              ((u.length + 1) :: Detectors.buildRow c (u.length + 1) (rowFor u [] s2) s2)
              cs2 (u.length + 1 + 1) from rfl]
    rw [hrow]
    have := ih (u ++ [c])
    rw [List.length_append] at this
    simp only [List.length_cons, List.length_nil] at this
    rw [show u.length + 1 + 1 = u.length + 1 + 1 from rfl]
    rw [show (u ++ [c]) ++ cs2 = u ++ (c :: cs2) by simp] at this
    exact this

theorem rowFor_nil_left (ys : Str) :
    ∀ u : Str, rowFor [] u ys = List.range' u.length (ys.length + 1) := by
  induction ys with
  | nil =>
    intro u
    simp [rowFor, classicLev_nil_left, List.range']
  | cons y ys2 ih =>
    intro u
    rw [show rowFor [] u (y :: ys2) = classicLev [] u :: rowFor [] (u ++ [y]) ys2 from rfl]
    rw [classicLev_nil_left, ih (u ++ [y]), List.length_append]
    simp only [List.length_cons, List.length_nil]
    conv_rhs => rw [List.range'_succ]

theorem rowFor_getD_last (xs : Str) :
    ∀ (ys u : Str), (rowFor xs u ys).getD ys.length 0 = classicLev xs (u ++ ys) := by
  intro ys
  induction ys with
  | nil =>
    intro u
    simp [rowFor]
  | cons y ys2 ih =>
    intro u
    rw [show rowFor xs u (y :: ys2) = classicLev xs u :: rowFor xs (u ++ [y]) ys2 from rfl]
    rw [List.length_cons, List.getD_cons_succ, ih (u ++ [y])]
    simp

/-- Correctness of the embedded dynamic-programming matrix: it computes the
classic Levenshtein distance with unit costs. -/
theorem levenshteinDistance_eq_classic (s1 s2 : Str) :
    Detectors.levenshteinDistance s1 s2 = classicLev s1 s2 := by
  unfold Detectors.levenshteinDistance
  have h0 : List.range (s2.length + 1) = rowFor [] [] s2 := by
    rw [rowFor_nil_left s2 [], List.length_nil, List.range_eq_range']
  rw [h0]
  have h1 := runRows_spec s2 s1 []
  simp only [List.length_nil, List.nil_append] at h1
  rw [h1, rowFor_getD_last s1 s2 []]
  simp

/-! ### Duplicate detection -/

/-- Kind of a duplicate finding. -/
inductive DupType : Type
  | exact
  | similar
  | template
deriving DecidableEq, Repr

/-- Reference to one side of a duplicate finding. -/
structure DupRef : Type where
  segmentId : Str
  content : Str
  startTime : ℚ
deriving DecidableEq, Repr

/-- Embedding of the DuplicateResult interface. -/
structure DuplicateResult : Type where
  id : Str
  type : DupType
  source : DupRef
  target : DupRef
  similarity : JsNum
  suggestion : Str
deriving DecidableEq, Repr

/-- First-occurrence deduplication, the semantics of building a JavaScript
Set from a list and spreading it back into an array. -/
def jsSetAux {α : Type} [DecidableEq α] : List α → List α → List α
  | _, [] => []
  | seen, a :: rest =>
      if a ∈ seen then jsSetAux seen rest else a :: jsSetAux (a :: seen) rest

/-- List of the distinct elements of a list in first-occurrence order. -/
def jsSetList {α : Type} [DecidableEq α] (l : List α) : List α := jsSetAux [] l

/-- Size of the JavaScript Set built from a list. -/
def jsSetSize {α : Type} [DecidableEq α] (l : List α) : ℕ := (jsSetList l).length

namespace Detectors

/-- Ordered pairs of a list in double-loop order (indices i before j). -/
def allPairs {α : Type} : List α → List (α × α)
  | [] => []
  | x :: xs => (xs.map (fun y => (x, y))) ++ allPairs xs

/-- Embedding of detectExactDuplicates.  The map from normalized content to
the first segment id carrying it is an association list; the fresh result ids
are drawn from the injected supply (Date.now and Math.random in the source).
The inner find always succeeds because the map only holds ids of segments of
the list; the none branch is unreachable. -/
def detectExactAux (all : List ScriptSegment) (normalize : Str → Str) (idGen : ℕ → Str) :
    List (Str × Str) → ℕ → List ScriptSegment → List DuplicateResult
  | _, _, [] => []
  | contentMap, k, seg :: rest =>
      let normalized := normalize seg.content
      match contentMap.lookup normalized with
      | some existingId =>
          match all.find? (fun s => decide (s.id = existingId)) with
          | some existing =>
              { id := idGen k
                type := DupType.exact
                source := ⟨existing.id, existing.content, existing.startTime⟩
                target := ⟨seg.id, seg.content, seg.startTime⟩
                similarity := JsNum.num 1
                suggestion := ("内容完全重复，建议删除或合并").data } ::
                detectExactAux all normalize idGen contentMap (k + 1) rest
          | none => detectExactAux all normalize idGen contentMap k rest
      | none =>
          detectExactAux all normalize idGen (contentMap ++ [(normalized, seg.id)]) k rest

/-- Embedding of detectExactDuplicates. -/
def detectExactDuplicates (segments : List ScriptSegment) (normalize : Str → Str)
    (idGen : ℕ → Str) : List DuplicateResult :=
  detectExactAux segments normalize idGen [] 0 segments

/-- Embedding of generateSuggestion from the detectors module. -/
def generateSuggestion (similarity : JsNum) : Str :=
  if JsNum.jsGe similarity (9/10) then ("内容高度相似，建议完全重写").data
  else if JsNum.jsGe similarity (8/10) then ("内容较为相似，建议大幅修改").data
  else if JsNum.jsGe similarity (7/10) then ("内容有一定相似度，建议调整表达方式").data
  else ("建议检查内容原创性").data

/-- Embedding of detectSemanticDuplicates; the pair loop runs over indices
i less than j, recorded in the result ids together with the injected
timestamp. -/
def detectSemanticDuplicates (segments : List ScriptSegment) (threshold : ℚ)
    (calcSim : Str → Str → JsNum) (now : Str) : List DuplicateResult :=
  (allPairs segments.enum).filterMap (fun p =>
    let similarity := calcSim p.1.2.content p.2.2.content
    if JsNum.jsGe similarity threshold then
      some { id := ("dup_semantic_").data ++ now ++ [Char.ofNat 95] ++
                (Nat.repr p.1.1).data ++ [Char.ofNat 95] ++ (Nat.repr p.2.1).data
             type := DupType.similar
             source := ⟨p.1.2.id, p.1.2.content, p.1.2.startTime⟩
             target := ⟨p.2.2.id, p.2.2.content, p.2.2.startTime⟩
             similarity := similarity
             suggestion := generateSuggestion similarity }
    else none)

/-- The curated template-phrase dictionary COMMON_PHRASES, in object order. -/
def COMMON_PHRASES : List (Str × List Str) :=
  [ (("intro").data,
      [("大家好，欢迎来到").data, ("今天给大家带来").data, ("今天要和大家分享").data,
       ("相信很多人都有过这样的经历").data, ("不知道大家有没有发现").data,
       ("今天我们要聊的是").data, ("最近我发现").data, ("今天给大家推荐").data]),
    (("transition").data,
      [("接下来我们看看").data, ("那么接下来").data, ("说完这个，我们再来看看").data,
       ("不仅如此").data, ("更重要的是").data, ("除此之外").data, ("另外值得一提的是").data]),
    (("conclusion").data,
      [("好了，今天的分享就到这里").data, ("以上就是今天的全部内容").data,
       ("希望今天的分享对你有帮助").data, ("如果你觉得有用，记得点赞收藏").data,
       ("我们下期再见").data, ("感谢大家的观看").data]),
    (("emphasis").data,
      [("非常重要").data, ("值得注意的是").data, ("关键点在于").data,
       ("这里需要特别注意").data, ("这一点很关键").data, ("千万不要忽视").data]),
    (("subjective").data,
      [("我觉得").data, ("个人认为").data, ("在我看来").data, ("说实话").data,
       ("老实说").data, ("坦白讲").data, ("不得不说").data]) ]

/-- Substring containment, the semantics of String.prototype.includes. -/
def strIncludes (s pat : Str) : Bool := decide (pat <:+: s)

/-- Template hits of one segment: every phrase of every category that occurs
as a substring of the segment content, in scan order. -/
def templateHits (seg : ScriptSegment) : List (Str × Str) :=
  COMMON_PHRASES.flatMap (fun cp =>
    cp.2.filterMap (fun phrase =>
      if strIncludes seg.content phrase then some (cp.1, phrase) else none))

/-- Embedding of detectTemplateContent; note that both the source and the
target of a template finding reference the same segment. -/
def detectTemplateAux (idGen : ℕ → Str) : ℕ → List ScriptSegment → List DuplicateResult
  | _, [] => []
  | k, seg :: rest =>
      (templateHits seg).enum.map (fun h =>
        { id := idGen (k + h.1)
          type := DupType.template
          source := ⟨seg.id, h.2.2, seg.startTime⟩
          target := ⟨seg.id, seg.content, seg.startTime⟩
          similarity := JsNum.num (1/2)
          suggestion := ("检测到").data ++ h.2.1 ++ ("套话，建议替换为更原创的表达").data })
      ++ detectTemplateAux idGen (k + (templateHits seg).length) rest

/-- Embedding of detectTemplateContent. -/
def detectTemplateContent (segments : List ScriptSegment) (idGen : ℕ → Str) :
    List DuplicateResult :=
  detectTemplateAux idGen 0 segments

/-- Test of the anchored sentence-frame patterns such as caret (.+?) X (.+?)
dollar: some occurrence of the middle character has a nonempty newline-free
part on each side.  (The regular-expression dollar would also match before a
final newline; scripts never end in a newline, so end of string is used.) -/
def frameTest (mid : Char) (text : Str) : Bool :=
  (List.range text.length).any (fun i =>
    decide (1 ≤ i) && decide (i + 2 ≤ text.length) &&
    decide (text.getD i mid = mid) &&
    (text.take i).all (fun c => !(decide (c = Char.ofNat 10))) &&
    (text.drop (i + 1)).all (fun c => !(decide (c = Char.ofNat 10))))

/-- Variant of frameTest for the one two-character frame (the possibility
frame), whose middle is two characters long. -/
def frameTestTwo (c1 c2 : Char) (text : Str) : Bool :=
  (List.range text.length).any (fun i =>
    decide (1 ≤ i) && decide (i + 3 ≤ text.length) &&
    decide (text.getD i c1 = c1) && decide (text.getD (i + 1) c2 = c2) &&
    (text.take i).all (fun c => !(decide (c = Char.ofNat 10))) &&
    (text.drop (i + 2)).all (fun c => !(decide (c = Char.ofNat 10))))

/-- Embedding of extractStructureFeatures: the five sentence frames and the
four connective classes, in source order. -/
def extractStructureFeatures (text : Str) : List Str :=
  (if frameTest ('是') text then [("是字句").data] else []) ++
  (if frameTest ('让') text then [("使令句").data] else []) ++
  (if frameTestTwo ('可') ('以') text then [("可能句").data] else []) ++
  (if frameTest ('有') text then [("存在句").data] else []) ++
  (if frameTest ('在') text then [("处所句").data] else []) ++
  (if strIncludes text (("因为").data) || strIncludes text (("由于").data)
    then [("因果").data] else []) ++
  (if strIncludes text (("但是").data) || strIncludes text (("然而").data)
    then [("转折").data] else []) ++
  (if strIncludes text (("而且").data) || strIncludes text (("并且").data)
    then [("递进").data] else []) ++
  (if strIncludes text (("如果").data) || strIncludes text (("假如").data)
    then [("假设").data] else [])

/-- Embedding of calculateStructureSimilarity from the detectors module:
Jaccard similarity of the two feature lists (0/0 gives NaN as in
JavaScript). -/
def calculateStructureSimilarity (text1 text2 : Str) : JsNum :=
  JsNum.jsDiv
    (JsNum.num (((extractStructureFeatures text1).filter
        (fun f => decide (f ∈ extractStructureFeatures text2))).length))
    (JsNum.num ((jsSetList
        ((extractStructureFeatures text1) ++ (extractStructureFeatures text2))).length))

/-- Embedding of detectStructuralDuplicates. -/
def detectStructuralDuplicates (segments : List ScriptSegment) (threshold : ℚ)
    (calcStructSim : Str → Str → JsNum) (now : Str) : List DuplicateResult :=
  (allPairs segments.enum).filterMap (fun p =>
    let structureSimilarity := calcStructSim p.1.2.content p.2.2.content
    if JsNum.jsGe structureSimilarity threshold then
      some { id := ("dup_structural_").data ++ now ++ [Char.ofNat 95] ++
                (Nat.repr p.1.1).data ++ [Char.ofNat 95] ++ (Nat.repr p.2.1).data
             type := DupType.similar
             source := ⟨p.1.2.id, p.1.2.content, p.1.2.startTime⟩
             target := ⟨p.2.2.id, p.2.2.content, p.2.2.startTime⟩
             similarity := structureSimilarity
             suggestion := ("句式结构相似，建议变换表达方式").data }
    else none)

/-- Forward and reverse keys used by the deduplication pass. -/
def dedupKey (r : DuplicateResult) : Str :=
  r.source.segmentId ++ [Char.ofNat 45] ++ r.target.segmentId

/-- Reverse key of a duplicate finding. -/
def dedupReverseKey (r : DuplicateResult) : Str :=
  r.target.segmentId ++ [Char.ofNat 45] ++ r.source.segmentId

/-- Embedding of deduplicateResults: keep a finding only when neither its key
nor its reverse key has been seen, recording the key. -/
def deduplicateAux : List Str → List DuplicateResult → List DuplicateResult
  | _, [] => []
  | seen, r :: rest =>
      if (dedupKey r ∈ seen) ∨ (dedupReverseKey r ∈ seen) then
        deduplicateAux seen rest
      else
        r :: deduplicateAux (seen ++ [dedupKey r]) rest

/-- Embedding of deduplicateResults. -/
def deduplicateResults (results : List DuplicateResult) : List DuplicateResult :=
  deduplicateAux [] results

end Detectors

/-! ### The dedup service -/

/-- Detection strategy names. -/
inductive DedupStrategy : Type
  | exact
  | semantic
  | structural
  | template
deriving DecidableEq, Repr

/-- Embedding of the DedupConfig interface. -/
structure DedupConfig : Type where
  enabled : Bool
  strategies : List DedupStrategy
  threshold : ℚ
  autoFix : Bool
  preserveMeaning : Bool
  autoVariant : Bool
deriving Repr

/-- Defaults of the DedupService constructor. -/
def defaultDedupConfig : DedupConfig :=
  { enabled := true
    strategies := [DedupStrategy.exact, DedupStrategy.semantic, DedupStrategy.template]
    threshold := 7 / 10
    autoFix := false
    preserveMeaning := true
    autoVariant := true }

/-- Numeric sort key of a stored similarity.  Every similarity stored in a
DuplicateResult is a finite number (candidates whose similarity is NaN never
pass the threshold comparison), so the default for the non-finite
constructors is never exercised. -/
def simVal : JsNum → ℚ
  | JsNum.num q => q
  | _ => 0

/-- Model of the final stable sort by descending similarity.  Every stable
sort agrees with the stable sort of the JavaScript runtime, so an insertion
sort is used. -/
def sortBySimilarityDesc (rs : List DuplicateResult) : List DuplicateResult :=
  List.insertionSort (fun a b => simVal b.similarity ≤ simVal a.similarity) rs

/-- Embedding of DedupService.detectDuplicates: run the enabled strategies in
order, concatenate, deduplicate, and sort by descending similarity. -/
def detectDuplicates (cfg : DedupConfig) (script : ScriptData)
    (exactIds tmplIds : ℕ → Str) (now : Str) : List DuplicateResult :=
  sortBySimilarityDesc (Detectors.deduplicateResults (
    (if DedupStrategy.exact ∈ cfg.strategies then
      Detectors.detectExactDuplicates script.segments Detectors.normalizeText exactIds
     else []) ++
    (if DedupStrategy.semantic ∈ cfg.strategies then
      Detectors.detectSemanticDuplicates script.segments cfg.threshold
        Detectors.calculateSimilarity now
     else []) ++
    (if DedupStrategy.template ∈ cfg.strategies then
      Detectors.detectTemplateContent script.segments tmplIds
     else []) ++
    (if DedupStrategy.structural ∈ cfg.strategies then
      Detectors.detectStructuralDuplicates script.segments cfg.threshold
        Detectors.calculateStructureSimilarity now
     else [])))

/-- Output of generateOriginalityReport (score and suggestions). -/
structure ReportOut : Type where
  score : JsNum
  suggestions : List Str
deriving DecidableEq, Repr

/-- Embedding of generateOriginalityReport from the rewriters module.  The
score is 100 minus 100 times the ratio of distinct flagged target segment ids
to the total segment count, clamped below at 0 and rounded; with zero
segments the ratio is 0/0 (NaN) or n/0 (infinity), exactly as in
JavaScript. -/
def generateOriginalityReport (script : ScriptData) (duplicates : List DuplicateResult) :
    ReportOut :=
  let totalSegments := script.segments.length
  let duplicateCount := jsSetSize (duplicates.map (fun d => d.target.segmentId))
  let score := JsNum.jsMax (JsNum.num 0)
    (JsNum.jsSub (JsNum.num 100)
      (JsNum.jsMul
        (JsNum.jsDiv (JsNum.num duplicateCount) (JsNum.num totalSegments))
        (JsNum.num 100)))
  let templateCount := (duplicates.filter
    (fun d => decide (d.type = DupType.template))).length
  let exactCount := (duplicates.filter
    (fun d => decide (d.type = DupType.exact))).length
  { score := JsNum.jsRound score
    suggestions :=
      (if JsNum.jsLt score 60 then [("原创性较低，建议大幅修改内容").data]
       else if JsNum.jsLt score 80 then [("原创性一般，建议优化重复段落").data]
       else []) ++
      (if 0 < templateCount then
        [("检测到 ").data ++ (Nat.repr templateCount).data ++
          (" 处模板化表达，建议使用更原创的语言").data]
       else []) ++
      (if 0 < exactCount then
        [("检测到 ").data ++ (Nat.repr exactCount).data ++
          (" 处完全重复内容，建议删除或合并").data]
       else []) }

/-! ### The uniqueness service -/

namespace Uniqueness

/-- Embedding of the UniquenessConfig interface. -/
structure UniquenessConfig : Type where
  enforceUniqueness : Bool
  similarityThreshold : ℚ
  checkHistory : Bool
  autoRewrite : Bool
  maxRewriteAttempts : ℕ
  addRandomness : Bool
deriving Repr

/-- Defaults of the UniquenessService constructor. -/
def defaultUniquenessConfig : UniquenessConfig :=
  { enforceUniqueness := true
    similarityThreshold := 3 / 10
    checkHistory := true
    autoRewrite := true
    maxRewriteAttempts := 3
    addRandomness := true }

/-- Embedding of the ContentFingerprint interface; the structural-signature
field is called structure in the source, which is a reserved word here. -/
structure ContentFingerprint : Type where
  id : Str
  scriptId : Str
  hash : Str
  keywords : List Str
  structureSig : Str
  createdAt : Str
deriving DecidableEq, Repr

/-- Characters kept by the keyword tokenizer (CJK unified ideographs of the
range 4E00 to 9FA5, ASCII letters and digits). -/
def isKeywordChar (c : Char) : Bool :=
  decide (0x4e00 ≤ c.toNat ∧ c.toNat ≤ 0x9fa5) ||
  decide (65 ≤ c.toNat ∧ c.toNat ≤ 90) ||
  decide (97 ≤ c.toNat ∧ c.toNat ≤ 122) ||
  decide (48 ≤ c.toNat ∧ c.toNat ≤ 57)

/-- Splitting on maximal runs of separator characters, the semantics of the
JavaScript split on a one-or-more whitespace pattern (a leading run yields a
leading empty token, a trailing run a trailing one).  A separator followed by
another separator belongs to the same run and contributes no further token
boundary. -/
def splitRuns (p : Char → Bool) : Str → List Str
  | [] => [[]]
  | c :: cs =>
      if p c then
        match cs with
        | [] => [[], []]
        | d :: _ => if p d then splitRuns p cs else [] :: splitRuns p cs
      else
        match splitRuns p cs with
        | h :: t => (c :: h) :: t
        | [] => [[c]]

/-- Frequency counting preserving first-occurrence order, the semantics of
counting into a JavaScript Map. -/
def bumpCount : List (Str × ℕ) → Str → List (Str × ℕ)
  | [], w => [(w, 1)]
  | (k, n) :: rest, w =>
      if k = w then (k, n + 1) :: rest else (k, n) :: bumpCount rest w

/-- Word counts of a word list in first-occurrence order. -/
def wordCounts (ws : List Str) : List (Str × ℕ) := ws.foldl bumpCount []

/-- The stopword list of extractKeywords. -/
def stopWords : List Str :=
  [("的").data, ("了").data, ("在").data, ("是").data, ("我").data, ("有").data,
   ("和").data, ("就").data, ("不").data, ("人").data, ("都").data, ("一").data,
   ("一个").data, ("上").data, ("也").data, ("很").data, ("到").data, ("说").data,
   ("要").data, ("去").data, ("你").data, ("会").data, ("着").data, ("没有").data,
   ("看").data, ("好").data, ("自己").data, ("这").data, ("那").data]

/-- Embedding of extractKeywords: lower-case, map every non-keyword character
to a space, split on whitespace runs, keep words of length at least two,
count, drop stopwords, sort by descending count (stable, so ties keep
first-occurrence order), keep the top twenty.  The stable JavaScript sort is
modelled by a stable insertion sort. -/
def extractKeywords (content : Str) : List Str :=
  let words := (splitRuns isJsSpace
      ((content.map jsToLower).map (fun c => if isKeywordChar c then c else ' '))).filter
    (fun w => decide (2 ≤ w.length))
  ((List.insertionSort (fun a b : Str × ℕ => b.2 ≤ a.2)
      ((wordCounts words).filter (fun kv => !(decide (kv.1 ∈ stopWords))))).take 20).map
    (fun kv => kv.1)

/-- Splitting at every separator character (no run merging), the semantics of
the JavaScript split on a character class or a literal string. -/
def splitEvery (p : Char → Bool) : Str → List Str
  | [] => [[]]
  | c :: cs =>
      if p c then [] :: splitEvery p cs
      else
        match splitEvery p cs with
        | h :: t => (c :: h) :: t
        | [] => [[c]]

/-- Embedding of generateStructureSignature: per segment, type, content
length and sentence count (split on the three sentence-final marks) joined
with a vertical bar. -/
def generateStructureSignature (script : ScriptData) : Str :=
  List.intercalate (['|'] : Str) (script.segments.map (fun s =>
    s.type.asStr ++ [':'] ++ (Nat.repr s.content.length).data ++ [':'] ++
    (Nat.repr ((splitEvery
      (fun c => decide (c = '。') || decide (c = '！') || decide (c = '？'))
      s.content).length)).data))

/-- Wrap of an integer into the signed 32-bit range, the semantics of the
JavaScript bitwise operations used by the hash loop. -/
def toInt32 (x : ℤ) : ℤ := (x + 2 ^ 31) % 2 ^ 32 - 2 ^ 31

/-- One step of the hash loop: hash shifted left five bits minus hash plus
the code unit, wrapped to 32 bits at the shift and at the bitwise and. -/
def hashStep (h : ℤ) (c : Char) : ℤ := toInt32 (toInt32 (h * 32) - h + c.toNat)

/-- Lowercase hexadecimal rendering of a natural number. -/
def toHexStr (n : ℕ) : Str := Nat.toDigits 16 n

/-- Embedding of generateHash: lower-case, delete whitespace, run the 32-bit
hash loop, render the absolute value in hexadecimal. -/
def generateHash (content : Str) : Str :=
  toHexStr (((content.map jsToLower).filter (fun c => !(isJsSpace c))).foldl
    hashStep 0).natAbs

/-- Embedding of generateFingerprint; the fresh id and timestamp (Date.now,
Math.random, Date.toISOString in the source) are injected. -/
def generateFingerprint (script : ScriptData) (fid fca : Str) : ContentFingerprint :=
  { id := fid
    scriptId := script.id
    hash := generateHash script.content
    keywords := extractKeywords script.content
    structureSig := generateStructureSignature script
    createdAt := fca }

/-- Embedding of calculateKeywordSimilarity: Jaccard similarity of the two
keyword sets (0/0 gives NaN exactly as in JavaScript). -/
def calculateKeywordSimilarity (keywords1 keywords2 : List Str) : JsNum :=
  JsNum.jsDiv
    (JsNum.num ((jsSetList ((jsSetList keywords1).filter
      (fun x => decide (x ∈ jsSetList keywords2)))).length))
    (JsNum.num ((jsSetList ((jsSetList keywords1) ++ (jsSetList keywords2))).length))

/-- Positionwise equality count of two part lists of equal length. -/
def countMatches : List Str → List Str → ℕ
  | a :: as, b :: bs => (if a = b then 1 else 0) + countMatches as bs
  | _, _ => 0

/-- Embedding of calculateStructureSimilarity of the uniqueness service:
split both signatures on the vertical bar; different part counts give 0,
otherwise the fraction of positions with equal parts. -/
def calculateStructureSimilarity (structure1 structure2 : Str) : JsNum :=
  if (splitEvery (fun c => decide (c = '|')) structure1).length ≠
      (splitEvery (fun c => decide (c = '|')) structure2).length then
    JsNum.num 0
  else
    JsNum.jsDiv
      (JsNum.num (countMatches (splitEvery (fun c => decide (c = '|')) structure1)
        (splitEvery (fun c => decide (c = '|')) structure2)))
      (JsNum.num ((splitEvery (fun c => decide (c = '|')) structure1).length))

/-- Embedding of calculateFingerprintSimilarity: equal hashes give 1.0
immediately, otherwise the 0.6/0.4 weighted sum of keyword and structure
similarity. -/
def calculateFingerprintSimilarity (fp1 fp2 : ContentFingerprint) : JsNum :=
  if fp1.hash = fp2.hash then JsNum.num 1
  else
    JsNum.jsAdd
      (JsNum.jsMul (calculateKeywordSimilarity fp1.keywords fp2.keywords)
        (JsNum.num (6 / 10)))
      (JsNum.jsMul (calculateStructureSimilarity fp1.structureSig fp2.structureSig)
        (JsNum.num (4 / 10)))

/-- Embedding of findDifferences. -/
def findDifferences (fp1 fp2 : ContentFingerprint) : List Str :=
  (if 0 < (fp1.keywords.filter (fun k => !(decide (k ∈ fp2.keywords)))).length then
    [("新增关键词: ").data ++ List.intercalate ((", ").data)
      ((fp1.keywords.filter (fun k => !(decide (k ∈ fp2.keywords)))).take 5)]
   else []) ++
  (if fp1.structureSig ≠ fp2.structureSig then [("段落结构不同").data] else [])

/-- Embedding of generateUniquenessSuggestions, graded by similarity band. -/
def generateUniquenessSuggestions (similarity : JsNum) : List Str :=
  if JsNum.jsGe similarity (8 / 10) then
    [("⚠️ 内容与历史脚本高度相似，建议完全重写").data,
     ("尝试更换解说角度或切入点").data,
     ("使用不同的案例或数据支撑").data]
  else if JsNum.jsGe similarity (5 / 10) then
    [("内容与历史脚本有一定相似度").data,
     ("建议调整部分段落表述").data,
     ("增加新的观点或见解").data]
  else
    [("内容与历史脚本略有相似").data,
     ("可进行微调提高唯一性").data]

/-- Reference to the matched historical script in a check result. -/
structure MatchedScript : Type where
  id : Str
  title : Str
  createdAt : Str
deriving DecidableEq, Repr

/-- Embedding of the UniquenessCheckResult interface. -/
structure UniquenessCheckResult : Type where
  isUnique : Bool
  similarity : JsNum
  matchedScript : Option MatchedScript
  differences : List Str
  suggestions : List Str
deriving DecidableEq, Repr

/-- The fingerprint history, a JavaScript Map in insertion order. -/
abbrev FpMap := List (Str × ContentFingerprint)

/-- The result returned when no stored fingerprint matches. -/
def uniqueResult : UniquenessCheckResult :=
  { isUnique := true
    similarity := JsNum.num 0
    matchedScript := none
    differences := []
    suggestions := [("内容唯一性良好").data] }

/-- Scan of the fingerprint history in insertion order; the first stored
fingerprint whose similarity reaches the threshold is returned. -/
def checkUniquenessScan (cfg : UniquenessConfig) (fingerprint : ContentFingerprint) :
    FpMap → UniquenessCheckResult
  | [] => uniqueResult
  | (_, existingFp) :: rest =>
      if JsNum.jsGe (calculateFingerprintSimilarity fingerprint existingFp)
          cfg.similarityThreshold then
        { isUnique := false
          similarity := calculateFingerprintSimilarity fingerprint existingFp
          matchedScript := some ⟨existingFp.scriptId, ("历史脚本").data, existingFp.createdAt⟩
          differences := findDifferences fingerprint existingFp
          suggestions := generateUniquenessSuggestions
            (calculateFingerprintSimilarity fingerprint existingFp) }
      else checkUniquenessScan cfg fingerprint rest

/-- Embedding of checkUniqueness: fingerprint the script and scan the
history (skipped entirely when history checking is off). -/
def checkUniqueness (cfg : UniquenessConfig) (fps : FpMap) (script : ScriptData)
    (fid fca : Str) : UniquenessCheckResult :=
  if cfg.checkHistory then
    checkUniquenessScan cfg (generateFingerprint script fid fca) fps
  else uniqueResult

/-- Insertion into a JavaScript Map: replace in place when the key exists,
append otherwise. -/
def mapSet (m : FpMap) (k : Str) (v : ContentFingerprint) : FpMap :=
  if (m.lookup k).isSome then
    m.map (fun kv => if kv.1 = k then (k, v) else kv)
  else m ++ [(k, v)]

/-- Embedding of registerScript: fingerprint the script and store it under
the fingerprint id. -/
def registerScript (fps : FpMap) (script : ScriptData) (fid fca : Str) : FpMap :=
  mapSet fps (generateFingerprint script fid fca).id (generateFingerprint script fid fca)

/-- Result of ensureUniqueness.  The checks and rewrites fields are
instrumentation: they count the checkUniqueness calls and the rewrite
collaborator invocations performed. -/
structure EnsureResult : Type where
  script : ScriptData
  attempts : ℕ
  isUnique : Bool
  fps : FpMap
  checks : ℕ
  rewrites : ℕ
deriving DecidableEq, Repr

/-- Embedding of the ensureUniqueness retry loop.  The rewrite collaborator
may fail; the source has no handler around it, so a failure aborts the whole
call (modelled by the Except monad).  The id supply is indexed by a nonce
counting the generateFingerprint calls. -/
def ensureUniquenessGo {ε : Type} (cfg : UniquenessConfig) (ids : ℕ → Str × Str)
    (rewriteFn : ScriptData → Except ε ScriptData) (fps : FpMap) :
    ℕ → ScriptData → ℕ → ℕ → ℕ → ℕ → Except ε EnsureResult
  | 0, currentScript, attempts, _, checks, rewrites =>
      Except.ok
        { script := currentScript
          attempts := attempts
          isUnique := false
          fps := fps
          checks := checks
          rewrites := rewrites }
  | remaining + 1, currentScript, attempts, n, checks, rewrites =>
      if (checkUniqueness cfg fps currentScript (ids n).1 (ids n).2).isUnique then
        Except.ok
          { script := currentScript
            attempts := attempts
            isUnique := true
            fps := registerScript fps currentScript (ids (n + 1)).1 (ids (n + 1)).2
            checks := checks + 1
            rewrites := rewrites }
      else if cfg.autoRewrite = false then
        Except.ok
          { script := currentScript
            attempts := attempts
            isUnique := false
            fps := fps
            checks := checks + 1
            rewrites := rewrites }
      else
        match rewriteFn currentScript with
        | Except.error e => Except.error e
        | Except.ok nextScript =>
            ensureUniquenessGo cfg ids rewriteFn fps remaining nextScript (attempts + 1)
              (n + 2) (checks + 1) (rewrites + 1)

/-- Embedding of ensureUniqueness.  The while condition attempts less than
maxRewriteAttempts is carried as the remaining count maxRewriteAttempts minus
attempts, which decreases by one per iteration exactly as attempts increases
by one. -/
def ensureUniqueness {ε : Type} (cfg : UniquenessConfig) (ids : ℕ → Str × Str)
    (fps : FpMap) (script : ScriptData)
    (rewriteFn : ScriptData → Except ε ScriptData) : Except ε EnsureResult :=
  ensureUniquenessGo cfg ids rewriteFn fps cfg.maxRewriteAttempts script 0 0 0 0

/-- The four phrase-variation groups of addRandomness. -/
def variations : List (List Str) :=
  [[("大家好，今天").data, ("欢迎来到本期，").data, ("今天我们来聊聊").data,
    ("这期内容我们要探讨").data],
   [("接下来").data, ("然后").data, ("随后").data, ("接着").data],
   [("非常重要").data, ("值得注意").data, ("关键在于").data, ("核心要点是").data],
   [("总结一下").data, ("总的来说").data, ("归纳起来").data, ("综上所述").data]]

/-- Global replacement of a literal nonempty pattern, the semantics of the
JavaScript global-flag replace on the variation phrases (none of which
contains a pattern metacharacter or a dollar sequence).  The empty-pattern
guard only makes the function total; every pattern passed is nonempty. -/
def replaceAll (pat rep : Str) : Str → Str
  | [] => []
  | c :: rest =>
      if h : pat ≠ [] ∧ pat <+: (c :: rest) then
        rep ++ replaceAll pat rep (List.drop pat.length (c :: rest))
      else c :: replaceAll pat rep rest
termination_by s => s.length
decreasing_by
  all_goals simp_wf
  all_goals
    first
    | (have hp : 0 < pat.length := List.length_pos.mpr h.1
       have hle := h.2.length_le
       simp only [List.length_cons] at hle
       omega)
    | omega

/-- Phrase substitution pass of addRandomness: each group substitutes a
randomly chosen alternative for its first phrase, globally. -/
def applyVariations (pick : ℕ → ℕ) (content : Str) : Str :=
  variations.enum.foldl (fun acc p =>
    match p.2 with
    | [] => acc
    | original :: alternatives =>
        replaceAll original
          (alternatives.getD (pick p.1 % alternatives.length) original) acc) content

/-- Exchange of two positions of a list; out-of-range indices leave the list
unchanged (the shuffle only ever passes valid indices). -/
def shuffleSwap {α : Type} (l : List α) (i j : ℕ) : List α :=
  match l[i]?, l[j]? with
  | some a, some b => (l.set i b).set j a
  | _, _ => l

/-- The Fisher-Yates loop of shuffleArray, counting the loop index down; the
random index for position i is injected as a value modulo i plus one. -/
def shuffleGo {α : Type} (g : ℕ → ℕ) : List α → ℕ → List α
  | arr, 0 => arr
  | arr, i + 1 => shuffleGo g (shuffleSwap arr (i + 1) (g (i + 1) % (i + 2))) i

/-- Embedding of shuffleArray. -/
def shuffleArray {α : Type} (g : ℕ → ℕ) (array : List α) : List α :=
  shuffleGo g array (array.length - 1)

/-- Embedding of addRandomness: substitute phrase variants in the derived
content, shuffle the interior segments when there are more than three, and
reassign segment ids.  The random choices, fresh ids and timestamp are
injected. -/
def addRandomness (cfg : UniquenessConfig) (pick g : ℕ → ℕ) (newIds : ℕ → Str)
    (ts : Str) (script : ScriptData) : ScriptData :=
  if cfg.addRandomness = false then script
  else
    { script with
      content := applyVariations pick script.content
      segments :=
        (if 3 < script.segments.length then
          script.segments.take 1 ++
            shuffleArray g (script.segments.drop 1).dropLast ++
            script.segments.drop (1 + ((script.segments.drop 1).dropLast).length)
         else script.segments).enum.map (fun p => { p.2 with id := newIds p.1 })
      updatedAt := ts }

end Uniqueness

/-! ### The dedup variants service -/

namespace Variants

/-- The eight variant identifiers, in declaration order. -/
inductive DedupVariantType : Type
  | conservative
  | balanced
  | aggressive
  | creative
  | academic
  | casual
  | poetic
  | technical
deriving DecidableEq, Repr

/-- Embedding of the DedupVariant interface. -/
structure DedupVariant : Type where
  id : DedupVariantType
  name : Str
  description : Str
  intensity : ℚ
  strategies : List Str
  synonymRatio : ℚ
  restructuring : Bool
  expansion : Bool
  contraction : Bool
deriving DecidableEq, Repr

/-- The DEDUP_VARIANTS record, in object order (the order of
Object.values). -/
def DEDUP_VARIANTS : List DedupVariant :=
  [ { id := DedupVariantType.conservative
      name := ("保守型").data
      description := ("最小化改动，保持原意和结构").data
      intensity := 2 / 10
      strategies := [("synonym_replace").data, ("minor_reorder").data]
      synonymRatio := 3 / 10
      restructuring := false, expansion := false, contraction := false },
    { id := DedupVariantType.balanced
      name := ("平衡型").data
      description := ("适度改写，平衡原创性和可读性").data
      intensity := 5 / 10
      strategies := [("synonym_replace").data, ("sentence_restructure").data,
        ("transition_change").data]
      synonymRatio := 5 / 10
      restructuring := true, expansion := false, contraction := false },
    { id := DedupVariantType.aggressive
      name := ("激进型").data
      description := ("大幅改写，最大化原创性").data
      intensity := 8 / 10
      strategies := [("synonym_replace").data, ("sentence_restructure").data,
        ("paragraph_reorder").data, ("voice_change").data, ("perspective_shift").data]
      synonymRatio := 7 / 10
      restructuring := true, expansion := true, contraction := true },
    { id := DedupVariantType.creative
      name := ("创意型").data
      description := ("完全重写，注入新观点").data
      intensity := 1
      strategies := [("complete_rewrite").data, ("new_examples").data,
        ("fresh_metaphors").data, ("different_angle").data]
      synonymRatio := 9 / 10
      restructuring := true, expansion := true, contraction := true },
    { id := DedupVariantType.academic
      name := ("学术型").data
      description := ("正式化改写，增加学术性").data
      intensity := 6 / 10
      strategies := [("formal_vocabulary").data, ("passive_voice").data,
        ("citation_style").data, ("technical_terms").data]
      synonymRatio := 6 / 10
      restructuring := true, expansion := true, contraction := false },
    { id := DedupVariantType.casual
      name := ("口语型").data
      description := ("口语化改写，更接地气").data
      intensity := 5 / 10
      strategies := [("colloquial_phrases").data, ("rhetorical_questions").data,
        ("personal_pronouns").data, ("contractions").data]
      synonymRatio := 4 / 10
      restructuring := true, expansion := false, contraction := true },
    { id := DedupVariantType.poetic
      name := ("诗意型").data
      description := ("文学化改写，增加修辞").data
      intensity := 7 / 10
      strategies := [("metaphors").data, ("parallelism").data, ("rhythm").data,
        ("imagery").data, ("emotional_language").data]
      synonymRatio := 6 / 10
      restructuring := true, expansion := true, contraction := false },
    { id := DedupVariantType.technical
      name := ("技术型").data
      description := ("专业化改写，精确表达").data
      intensity := 6 / 10
      strategies := [("precise_terminology").data, ("logical_structure").data,
        ("data_driven").data, ("step_by_step").data]
      synonymRatio := 5 / 10
      restructuring := true, expansion := true, contraction := false } ]

/-- Addition into the JavaScript Set of used variants. -/
def jsSetAdd (used : List DedupVariantType) (v : DedupVariantType) :
    List DedupVariantType :=
  if v ∈ used then used else used ++ [v]

/-- Fuel-indexed embedding of DedupVariantService.selectVariant.  The source
recursion either selects from the available variants (those neither used nor
excluded), or clears the used set and retries; when every variant is excluded
the retry never makes progress, so the recursion is indexed by fuel and
returns none when it is exhausted: the source call diverges exactly when no
amount of fuel yields a value.  The random choice is injected per recursion
step. -/
def selectVariantFuel (r : ℕ → ℕ) :
    ℕ → List DedupVariantType → List DedupVariantType → ℕ →
    Option (DedupVariant × List DedupVariantType)
  | 0, _, _, _ => none
  | fuel + 1, used, exclude, step =>
      let available := DEDUP_VARIANTS.filter
        (fun v => !(decide (v.id ∈ used)) && !(decide (v.id ∈ exclude)))
      if available.length = 0 then selectVariantFuel r fuel [] exclude (step + 1)
      else
        match available[(r step) % available.length]? with
        | some selected => some (selected, jsSetAdd used selected.id)
        | none => none

end Variants

/-- The Levenshtein distance is at most the length of the longer argument. -/
theorem classicLev_le_max (xs : Str) :
    ∀ ys : Str, classicLev xs ys ≤ max xs.length ys.length := by
  induction xs with
  | nil =>
    intro ys
    rw [classicLev_nil_left]
    omega
  | cons x xs2 ih =>
    intro ys
    cases ys with
    | nil =>
      rw [classicLev_nil_right]
      simp
    | cons y ys2 =>
      have h1 := ih ys2
      have h2 : Detectors.subCost x y ≤ 1 := by
        unfold Detectors.subCost
        split <;> omega
      rw [classicLev_cons_cons]
      simp only [List.length_cons]
      omega

/-! ### Concrete example data used by witnesses and counterexamples -/

/-- A one-segment example script. -/
def exSeg : ScriptSegment :=
  { id := ("s1").data
    startTime := 0
    endTime := 1
    content := ("hello world hello").data
    type := SegType.narration }

/-- The example script around exSeg. -/
def exScript : ScriptData :=
  { id := ("sc1").data
    content := ("hello world hello").data
    segments := [exSeg]
    updatedAt := ("t0").data }

/-- A stored fingerprint whose hash equals the hash of the example script, so
its similarity to the example script is the literal 1.0. -/
def exFpB : Uniqueness.ContentFingerprint :=
  { id := ("k2").data
    scriptId := ("B").data
    hash := Uniqueness.generateHash exScript.content
    keywords := [("hello").data, ("world").data]
    structureSig := Uniqueness.generateStructureSignature exScript
    createdAt := ("cb").data }

/-- A uniqueness configuration with similarity threshold zero (an admissible
configuration that keeps every comparison an integer comparison). -/
def exCfgThr0 : Uniqueness.UniquenessConfig :=
  { enforceUniqueness := true
    similarityThreshold := 0
    checkHistory := true
    autoRewrite := true
    maxRewriteAttempts := 3
    addRandomness := true }

/-- A fixed id supply for the fingerprint generator. -/
def exIds : ℕ → Str × Str := fun n => ((Nat.repr n).data, ("c").data)

/-! ### Claim C9 -/

/-- Claim C9: normalizeText is idempotent; for every string x,
normalize applied twice agrees with normalize applied once. -/
theorem claim_C9 (x : Str) :
    Detectors.normalizeText (Detectors.normalizeText x) = Detectors.normalizeText x :=
  normalizeText_idem_aux x

/-! ### Claim C2 -/

/-- Claim C2, as amended: ensureUniqueness called with maxRewriteAttempts
zero performs zero uniqueness checks (the while condition is false at once)
and returns the input script with attempts zero and isUnique false, never
invoking the rewrite collaborator. -/
theorem claim_C2_amended {ε : Type} (cfg : Uniqueness.UniquenessConfig)
    (ids : ℕ → Str × Str) (fps : Uniqueness.FpMap) (script : ScriptData)
    (rewriteFn : ScriptData → Except ε ScriptData)
    (h : cfg.maxRewriteAttempts = 0) :
    Uniqueness.ensureUniqueness cfg ids fps script rewriteFn =
      Except.ok
        { script := script, attempts := 0, isUnique := false, fps := fps,
          checks := 0, rewrites := 0 } := by
  unfold Uniqueness.ensureUniqueness
  rw [h]
  rfl

/-- Witness for the amended claim C2 at a concrete configuration. -/
theorem claim_C2_amended_witness :
    Uniqueness.ensureUniqueness { exCfgThr0 with maxRewriteAttempts := 0 } exIds []
        exScript (fun _ => Except.error ("boom").data) =
      Except.ok
        { script := exScript, attempts := 0, isUnique := false, fps := [],
          checks := 0, rewrites := 0 } :=
  claim_C2_amended _ _ _ _ _ rfl

/-- Counterexample to claim C2 as stated: with maxRewriteAttempts zero the
call performs zero uniqueness checks, not exactly one.  Against an empty
history a single check would have succeeded and registered the fingerprint,
yet the call returns isUnique false with an unchanged empty history and a
check count of zero. -/
theorem claim_C2_counterexample :
    Uniqueness.ensureUniqueness { exCfgThr0 with maxRewriteAttempts := 0 } exIds []
        exScript (fun _ => (Except.ok exScript : Except Str ScriptData)) =
      Except.ok
        { script := exScript, attempts := 0, isUnique := false, fps := [],
          checks := 0, rewrites := 0 } ∧
    (Uniqueness.checkUniqueness { exCfgThr0 with maxRewriteAttempts := 0 } [] exScript
        (exIds 0).1 (exIds 0).2).isUnique = true := by
  constructor
  · exact claim_C2_amended _ _ _ _ _ rfl
  · decide

/-! ### Claim C3 -/

/-- Claim C3, as amended: when the injected rewrite collaborator fails
during ensureUniqueness, the failure propagates out of the orchestrator
unchanged; there is no handler, no early ok return, and the caller receives
the error. -/
theorem claim_C3_amended {ε : Type} (cfg : Uniqueness.UniquenessConfig)
    (ids : ℕ → Str × Str) (fps : Uniqueness.FpMap) (script : ScriptData) (e : ε)
    (hauto : cfg.autoRewrite = true)
    (hmax : 0 < cfg.maxRewriteAttempts)
    (hcheck : (Uniqueness.checkUniqueness cfg fps script (ids 0).1 (ids 0).2).isUnique
      = false) :
    Uniqueness.ensureUniqueness cfg ids fps script (fun _ => Except.error e) =
      Except.error e := by
  unfold Uniqueness.ensureUniqueness
  obtain ⟨r, hr⟩ : ∃ r, cfg.maxRewriteAttempts = r + 1 :=
    ⟨cfg.maxRewriteAttempts - 1, by omega⟩
  rw [hr]
  unfold Uniqueness.ensureUniquenessGo
  rw [hcheck]
  simp [hauto]

/-- Witness for the amended claim C3 at a concrete configuration whose check
fails (the stored fingerprint has the same hash as the script). -/
theorem claim_C3_amended_witness :
    Uniqueness.ensureUniqueness exCfgThr0 exIds [((("k2").data), exFpB)] exScript
        (fun _ => Except.error ("boom").data) =
      Except.error ("boom").data :=
  claim_C3_amended _ _ _ _ _ rfl (by decide) (by decide)

/-- Counterexample to claim C3 as stated: the failure of the rewrite
collaborator is returned to the caller as an error, not caught and converted
into an ok result carrying the last script. -/
theorem claim_C3_counterexample :
    Uniqueness.ensureUniqueness exCfgThr0 exIds [((("k2").data), exFpB)] exScript
        (fun _ => Except.error ("boom").data) =
      Except.error ("boom").data ∧
    ∀ r : Uniqueness.EnsureResult,
      Uniqueness.ensureUniqueness exCfgThr0 exIds [((("k2").data), exFpB)] exScript
        (fun _ => Except.error ("boom").data) ≠ Except.ok r := by
  constructor
  · decide
  · intro r hc
    rw [show Uniqueness.ensureUniqueness exCfgThr0 exIds [((("k2").data), exFpB)] exScript
          (fun _ => Except.error ("boom").data) = Except.error ("boom").data from by decide]
      at hc
    cases hc

/-! ### Claim C8 -/

/-- Every field of a segment except its id, used to state that a segment
keeps its position while its id is reassigned. -/
def stripId (s : ScriptSegment) : Str × ℚ × ℚ × SegType :=
  (s.content, s.startTime, s.endTime, s.type)

theorem shuffleSwap_length {α : Type} (l : List α) (i j : ℕ) :
    (Uniqueness.shuffleSwap l i j).length = l.length := by
  unfold Uniqueness.shuffleSwap
  cases hi : l[i]? with
  | none => simp
  | some a =>
    cases hj : l[j]? with
    | none => simp
    | some b => simp

theorem shuffleGo_length {α : Type} (g : ℕ → ℕ) :
    ∀ (k : ℕ) (l : List α), (Uniqueness.shuffleGo g l k).length = l.length := by
  intro k
  induction k with
  | zero => intro l; rfl
  | succ i ih =>
    intro l
    unfold Uniqueness.shuffleGo
    rw [ih, shuffleSwap_length]

theorem shuffleArray_length {α : Type} (g : ℕ → ℕ) (l : List α) :
    (Uniqueness.shuffleArray g l).length = l.length :=
  shuffleGo_length g (l.length - 1) l

theorem enumFrom_idmap_stripId (newIds : ℕ → Str) :
    ∀ (l : List ScriptSegment) (n : ℕ),
      ((List.enumFrom n l).map (fun p => { p.2 with id := newIds p.1 })).map stripId
        = l.map stripId := by
  intro l
  induction l with
  | nil => intro n; rfl
  | cons a l2 ih =>
    intro n
    simp only [List.enumFrom, List.map_cons]
    rw [ih (n + 1)]
    rfl

theorem getLast?_map_stripId :
    ∀ l : List ScriptSegment, (l.map stripId).getLast? = l.getLast?.map stripId := by
  intro l
  induction l with
  | nil => rfl
  | cons a l2 ih =>
    cases l2 with
    | nil => rfl
    | cons b l3 =>
      simp only [List.map_cons] at ih ⊢
      rw [List.getLast?_cons_cons, List.getLast?_cons_cons, ih]

/-- Claim C8: for every script with at least two segments, addRandomness
keeps the first segment first and the last segment last (up to the id
reassignment, which touches no other field), and preserves the segment
count. -/
theorem claim_C8 (cfg : Uniqueness.UniquenessConfig) (pick g : ℕ → ℕ)
    (newIds : ℕ → Str) (ts : Str) (script : ScriptData)
    (h2 : 2 ≤ script.segments.length) :
    (Uniqueness.addRandomness cfg pick g newIds ts script).segments.length
        = script.segments.length ∧
    ((Uniqueness.addRandomness cfg pick g newIds ts script).segments.map stripId).head?
        = (script.segments.map stripId).head? ∧
    ((Uniqueness.addRandomness cfg pick g newIds ts script).segments.map stripId).getLast?
        = (script.segments.map stripId).getLast? := by
  unfold Uniqueness.addRandomness
  by_cases hA : cfg.addRandomness = false
  · rw [if_pos hA]
    exact ⟨rfl, rfl, rfl⟩
  · rw [if_neg hA]
    revert h2
    generalize script.segments = L
    intro h2
    by_cases h3 : 3 < L.length
    · rw [if_pos h3]
      obtain ⟨a, L2, rfl⟩ : ∃ a L2, L = a :: L2 := by
        cases L with
        | nil => simp at h3
        | cons a L2 => exact ⟨a, L2, rfl⟩
      have hmidlen : ((a :: L2).drop 1).dropLast.length = L2.length - 1 := by
        simp [List.length_dropLast]
      set mid := ((a :: L2).drop 1).dropLast with hmid
      set shuffled := Uniqueness.shuffleArray g mid with hshuf
      have hshuflen : shuffled.length = L2.length - 1 := by
        rw [hshuf, shuffleArray_length, hmidlen]
      set C := (a :: L2).drop (1 + mid.length) with hC
      have hCeq : C = (a :: L2).drop (L2.length) := by
        rw [hC, hmidlen]
        congr 1
        simp only [List.length_cons] at h3
        omega
      have hClen : C.length = 1 := by
        rw [hCeq]
        simp only [List.length_drop, List.length_cons]
        omega
      have hCne : C ≠ [] := by
        intro hnil
        rw [hnil] at hClen
        simp at hClen
      have hseg : (a :: L2).take 1 ++ shuffled ++ C = a :: (shuffled ++ C) := by
        simp
      rw [hseg]
      constructor
      · rw [List.length_map, List.enum_length]
        simp only [List.length_cons, List.length_append] at *
        rw [hshuflen]
        omega
      constructor
      · rw [show List.enum (a :: (shuffled ++ C)) = List.enumFrom 0 (a :: (shuffled ++ C))
              from rfl]
        rw [enumFrom_idmap_stripId]
        simp
      · rw [show List.enum (a :: (shuffled ++ C)) = List.enumFrom 0 (a :: (shuffled ++ C))
              from rfl]
        rw [enumFrom_idmap_stripId]
        rw [getLast?_map_stripId, getLast?_map_stripId]
        congr 1
        rw [show a :: (shuffled ++ C) = (a :: shuffled) ++ C from rfl]
        rw [List.getLast?_append_of_ne_nil _ hCne]
        conv_rhs => rw [show (a :: L2) = (a :: L2).take (L2.length) ++ (a :: L2).drop (L2.length)
          from (List.take_append_drop _ _).symm]
        rw [List.getLast?_append_of_ne_nil _ (by rw [← hCeq]; exact hCne), ← hCeq]
    · rw [if_neg h3]
      refine ⟨?_, ?_, ?_⟩
      · rw [List.length_map, List.enum_length]
      · rw [show List.enum L = List.enumFrom 0 L from rfl, enumFrom_idmap_stripId]
      · rw [show List.enum L = List.enumFrom 0 L from rfl, enumFrom_idmap_stripId]

/-- Witness for claim C8 at a concrete five-segment script. -/
theorem claim_C8_witness :
    2 ≤ (5 : ℕ) ∧
    ((Uniqueness.addRandomness exCfgThr0 (fun _ => 1) (fun _ => 1)
        (fun n => (Nat.repr n).data) (("t1").data)
        { exScript with segments := [exSeg, exSeg, exSeg, exSeg, exSeg] }).segments.map
      stripId).head?
      = (([exSeg, exSeg, exSeg, exSeg, exSeg].map stripId)).head? := by
  constructor
  · decide
  · exact (claim_C8 exCfgThr0 (fun _ => 1) (fun _ => 1) (fun n => (Nat.repr n).data)
      (("t1").data) { exScript with segments := [exSeg, exSeg, exSeg, exSeg, exSeg] }
      (by decide)).2.1

/-! ### Claim C10 -/

/-- Claim C10: when at least one of the eight variant ids is outside the
exclude list, selectVariant terminates (two units of fuel suffice, and the
result does not depend on any further fuel), returning a variant that is
neither excluded nor in the session used set, except that when every
non-excluded variant has already been used the used set is cleared first;
when the exclude list covers all eight ids, the recursion never produces a
value at any fuel, which is the fuel-indexed reading of divergence. -/
theorem claim_C10 (exclude used : List Variants.DedupVariantType) (r : ℕ → ℕ) (step : ℕ) :
    ((∀ v ∈ Variants.DEDUP_VARIANTS, v.id ∈ exclude) →
      ∀ fuel, Variants.selectVariantFuel r fuel used exclude step = none) ∧
    ((∃ v ∈ Variants.DEDUP_VARIANTS, v.id ∉ exclude) →
      ∃ sel used2,
        (∀ extra, Variants.selectVariantFuel r (2 + extra) used exclude step
          = some (sel, used2)) ∧
        sel.id ∉ exclude ∧
        (sel.id ∉ used ∨ ∀ v ∈ Variants.DEDUP_VARIANTS, v.id ∉ exclude → v.id ∈ used)) := by
  constructor
  · intro hall fuel
    have key : ∀ (fuel : ℕ) (u : List Variants.DedupVariantType) (s : ℕ),
        Variants.selectVariantFuel r fuel u exclude s = none := by
      intro fuel
      induction fuel with
      | zero => intro u s; rfl
      | succ f ih =>
        intro u s
        have hfe : Variants.DEDUP_VARIANTS.filter
            (fun v => !(decide (v.id ∈ u)) && !(decide (v.id ∈ exclude))) = [] := by
          rw [List.filter_eq_nil]
          intro v hv
          simp [hall v hv]
        unfold Variants.selectVariantFuel
        rw [hfe]
        simpa using ih [] (s + 1)
    exact key fuel used step
  · intro hex
    obtain ⟨v, hvmem, hvex⟩ := hex
    by_cases hA : Variants.DEDUP_VARIANTS.filter
        (fun w => !(decide (w.id ∈ used)) && !(decide (w.id ∈ exclude))) = []
    · set A2 := Variants.DEDUP_VARIANTS.filter
          (fun w => !(decide (w.id ∈ ([] : List Variants.DedupVariantType))) &&
            !(decide (w.id ∈ exclude))) with hA2
      have hvm2 : v ∈ A2 := by
        rw [hA2, List.mem_filter]
        exact ⟨hvmem, by simp [hvex]⟩
      have hlen : 0 < A2.length :=
        List.length_pos.mpr (by intro h0; rw [h0] at hvm2; cases hvm2)
      have hidx : r (step + 1) % A2.length < A2.length := Nat.mod_lt _ hlen
      refine ⟨A2.get ⟨r (step + 1) % A2.length, hidx⟩,
        Variants.jsSetAdd [] (A2.get ⟨r (step + 1) % A2.length, hidx⟩).id, ?_, ?_, ?_⟩
      · intro extra
        rw [show 2 + extra = (1 + extra) + 1 from by omega]
        unfold Variants.selectVariantFuel
        rw [hA]
        simp only [List.length_nil, if_pos]
        rw [show 1 + extra = extra + 1 from by omega]
        unfold Variants.selectVariantFuel
        rw [← hA2, if_neg (by omega), List.getElem?_eq_getElem hidx]
        rfl
      · have hmem := A2.get_mem (r (step + 1) % A2.length) hidx
        have h2 := (List.mem_filter.mp hmem).2
        simp only [Bool.and_eq_true, Bool.not_eq_true', decide_eq_false_iff_not] at h2
        exact h2.2
      · right
        intro w hw hwex
        have hko := (List.filter_eq_nil.mp hA) w hw
        by_cases hwu : w.id ∈ used
        · exact hwu
        · exact absurd (by simp [hwu, hwex]) hko
    · set A1 := Variants.DEDUP_VARIANTS.filter
          (fun w => !(decide (w.id ∈ used)) && !(decide (w.id ∈ exclude))) with hA1
      have hlen : 0 < A1.length := List.length_pos.mpr (by rw [hA1]; exact hA)
      have hidx : r step % A1.length < A1.length := Nat.mod_lt _ hlen
      refine ⟨A1.get ⟨r step % A1.length, hidx⟩,
        Variants.jsSetAdd used (A1.get ⟨r step % A1.length, hidx⟩).id, ?_, ?_, ?_⟩
      · intro extra
        rw [show 2 + extra = (1 + extra) + 1 from by omega]
        unfold Variants.selectVariantFuel
        rw [← hA1, if_neg (by omega), List.getElem?_eq_getElem hidx]
        rfl
      · have hmem := A1.get_mem (r step % A1.length) hidx
        have h2 := (List.mem_filter.mp hmem).2
        simp only [Bool.and_eq_true, Bool.not_eq_true', decide_eq_false_iff_not] at h2
        exact h2.2
      · left
        have hmem := A1.get_mem (r step % A1.length) hidx
        have h2 := (List.mem_filter.mp hmem).2
        simp only [Bool.and_eq_true, Bool.not_eq_true', decide_eq_false_iff_not] at h2
        exact h2.1

/-- Witness for claim C10: with everything excluded the call yields no value
at fuel seven; with nothing excluded it selects a variant at fuel two. -/
theorem claim_C10_witness :
    (Variants.selectVariantFuel (fun _ => 0) 7 []
      [Variants.DedupVariantType.conservative, Variants.DedupVariantType.balanced,
       Variants.DedupVariantType.aggressive, Variants.DedupVariantType.creative,
       Variants.DedupVariantType.academic, Variants.DedupVariantType.casual,
       Variants.DedupVariantType.poetic, Variants.DedupVariantType.technical] 0 = none) ∧
    (∃ sel used2,
      (∀ extra, Variants.selectVariantFuel (fun _ => 0) (2 + extra) [] [] 0
        = some (sel, used2)) ∧
      sel.id ∉ ([] : List Variants.DedupVariantType)) := by
  constructor
  · exact (claim_C10 _ [] (fun _ => 0) 0).1 (by decide) 7
  · obtain ⟨sel, used2, h1, _, _⟩ :=
      (claim_C10 [] [] (fun _ => 0) 0).2
        ⟨Variants.DEDUP_VARIANTS.head (by decide), by
          refine ⟨List.head_mem _, ?_⟩
          simp⟩
    exact ⟨sel, used2, h1, by simp⟩

/-! ### Claim C7 -/

theorem jsSetAux_not_mem_seen {α : Type} [DecidableEq α] :
    ∀ (l seen : List α) (x : α), x ∈ jsSetAux seen l → x ∉ seen := by
  intro l
  induction l with
  | nil => intro seen x hx; cases hx
  | cons a rest ih =>
    intro seen x hx
    unfold jsSetAux at hx
    by_cases ha : a ∈ seen
    · rw [if_pos ha] at hx
      exact ih seen x hx
    · rw [if_neg ha] at hx
      rcases List.mem_cons.mp hx with rfl | hx2
      · exact ha
      · intro hxs
        exact ih (a :: seen) x hx2 (List.mem_cons_of_mem a hxs)

theorem jsSetAux_nodup {α : Type} [DecidableEq α] :
    ∀ (l seen : List α), (jsSetAux seen l).Nodup := by
  intro l
  induction l with
  | nil => intro seen; exact List.nodup_nil
  | cons a rest ih =>
    intro seen
    unfold jsSetAux
    by_cases ha : a ∈ seen
    · rw [if_pos ha]; exact ih seen
    · rw [if_neg ha]
      refine List.nodup_cons.mpr ⟨?_, ih (a :: seen)⟩
      intro hmem
      exact jsSetAux_not_mem_seen rest (a :: seen) a hmem (List.mem_cons_self a seen)

theorem jsSetAux_toFinset {α : Type} [DecidableEq α] :
    ∀ (l seen : List α), (jsSetAux seen l).toFinset = l.toFinset \ seen.toFinset := by
  intro l
  induction l with
  | nil => intro seen; simp [jsSetAux]
  | cons a rest ih =>
    intro seen
    unfold jsSetAux
    by_cases ha : a ∈ seen
    · rw [if_pos ha, ih seen]
      ext x
      simp only [Finset.mem_sdiff, List.mem_toFinset, List.mem_cons]
      constructor
      · intro hx; exact ⟨Or.inr hx.1, hx.2⟩
      · rintro ⟨rfl | hx, hns⟩
        · exact absurd ha hns
        · exact ⟨hx, hns⟩
    · rw [if_neg ha]
      ext x
      simp only [List.toFinset_cons, Finset.mem_insert, List.mem_toFinset,
        Finset.mem_sdiff, ih (a :: seen), List.toFinset_cons, List.mem_cons]
      by_cases hx : x = a
      · subst hx
        simp [ha]
      · simp [hx]
        all_goals tauto

theorem jsSetList_toFinset {α : Type} [DecidableEq α] (l : List α) :
    (jsSetList l).toFinset = l.toFinset := by
  unfold jsSetList
  rw [jsSetAux_toFinset]
  simp

theorem mem_jsSetList {α : Type} [DecidableEq α] (l : List α) (x : α) :
    x ∈ jsSetList l ↔ x ∈ l := by
  rw [← List.mem_toFinset, jsSetList_toFinset, List.mem_toFinset]

theorem jsSetList_length {α : Type} [DecidableEq α] (l : List α) :
    (jsSetList l).length = l.toFinset.card := by
  rw [← jsSetList_toFinset]
  exact (List.toFinset_card_of_nodup (jsSetAux_nodup l [])).symm

theorem countMatches_eq_zip_countP :
    ∀ p1 p2 : List Str, Uniqueness.countMatches p1 p2
      = ((p1.zip p2).countP (fun ab => decide (ab.1 = ab.2))) := by
  intro p1
  induction p1 with
  | nil => intro p2; cases p2 <;> rfl
  | cons a as ih =>
    intro p2
    cases p2 with
    | nil => rfl
    | cons b bs =>
      rw [show Uniqueness.countMatches (a :: as) (b :: bs)
            = (if a = b then 1 else 0) + Uniqueness.countMatches as bs from rfl]
      rw [List.zip_cons_cons, List.countP_cons, ih bs]
      simp only [decide_eq_true_eq]
      split_ifs <;> omega

/-- The keyword similarity as the claim words it: the Jaccard similarity of
the two keyword sets (with the same division semantics as the code, so two
empty sets give NaN). -/
def keywordJaccardClaim (k1 k2 : List Str) : JsNum :=
  JsNum.jsDiv (JsNum.num ((k1.toFinset ∩ k2.toFinset).card))
    (JsNum.num ((k1.toFinset ∪ k2.toFinset).card))

/-- The structural match ratio as the claim words it: zero when the two
signatures split into different numbers of parts, else the fraction of
positions whose parts are equal. -/
def structuralRatioClaim (s1 s2 : Str) : JsNum :=
  if (Uniqueness.splitEvery (fun c => decide (c = '|')) s1).length ≠
      (Uniqueness.splitEvery (fun c => decide (c = '|')) s2).length then
    JsNum.num 0
  else
    JsNum.jsDiv
      (JsNum.num (((Uniqueness.splitEvery (fun c => decide (c = '|')) s1).zip
          (Uniqueness.splitEvery (fun c => decide (c = '|')) s2)).countP
        (fun ab => decide (ab.1 = ab.2))))
      (JsNum.num ((Uniqueness.splitEvery (fun c => decide (c = '|')) s1).length))

/-- The fingerprint similarity as the claim words it. -/
def claimFingerprintSimilarity (fp1 fp2 : Uniqueness.ContentFingerprint) : JsNum :=
  if fp1.hash = fp2.hash then JsNum.num 1
  else
    JsNum.jsAdd
      (JsNum.jsMul (JsNum.num (6 / 10)) (keywordJaccardClaim fp1.keywords fp2.keywords))
      (JsNum.jsMul (JsNum.num (4 / 10))
        (structuralRatioClaim fp1.structureSig fp2.structureSig))

theorem jsMul_comm (a b : JsNum) : JsNum.jsMul a b = JsNum.jsMul b a := by
  cases a <;> cases b <;> simp [JsNum.jsMul, mul_comm]

theorem keywordSimilarity_eq_claim (k1 k2 : List Str) :
    Uniqueness.calculateKeywordSimilarity k1 k2 = keywordJaccardClaim k1 k2 := by
  unfold Uniqueness.calculateKeywordSimilarity keywordJaccardClaim
  have hinter : (jsSetList ((jsSetList k1).filter
      (fun x => decide (x ∈ jsSetList k2)))).length = (k1.toFinset ∩ k2.toFinset).card := by
    rw [jsSetList_length, List.toFinset_filter]
    congr 1
    rw [jsSetList_toFinset]
    ext x
    simp only [Finset.mem_filter, decide_eq_true_eq, mem_jsSetList, Finset.mem_inter,
      List.mem_toFinset]
  have hunion : (jsSetList ((jsSetList k1) ++ (jsSetList k2))).length
      = (k1.toFinset ∪ k2.toFinset).card := by
    rw [jsSetList_length, List.toFinset_append, jsSetList_toFinset, jsSetList_toFinset]
  rw [hinter, hunion]

theorem structureSimilarity_eq_claim (s1 s2 : Str) :
    Uniqueness.calculateStructureSimilarity s1 s2 = structuralRatioClaim s1 s2 := by
  unfold Uniqueness.calculateStructureSimilarity structuralRatioClaim
  by_cases h : (Uniqueness.splitEvery (fun c => decide (c = '|')) s1).length =
      (Uniqueness.splitEvery (fun c => decide (c = '|')) s2).length
  · rw [if_neg (by omega), if_neg (by omega), countMatches_eq_zip_countP]
  · rw [if_pos (by omega), if_pos (by omega)]

/-- Claim C7: calculateFingerprintSimilarity returns 1.0 exactly on equal
hashes, and otherwise 0.6 times the keyword-set Jaccard similarity plus 0.4
times the structural match ratio, where the ratio is 0 on signatures with
different part counts and otherwise the fraction of equal positions. -/
theorem claim_C7 (fp1 fp2 : Uniqueness.ContentFingerprint) :
    Uniqueness.calculateFingerprintSimilarity fp1 fp2
      = claimFingerprintSimilarity fp1 fp2 := by
  unfold Uniqueness.calculateFingerprintSimilarity claimFingerprintSimilarity
  by_cases h : fp1.hash = fp2.hash
  · rw [if_pos h, if_pos h]
  · rw [if_neg h, if_neg h, keywordSimilarity_eq_claim, structureSimilarity_eq_claim,
      jsMul_comm (keywordJaccardClaim fp1.keywords fp2.keywords),
      jsMul_comm (structuralRatioClaim fp1.structureSig fp2.structureSig)]

/-! ### Claim C6 -/

/-- Counterexample to claim C6 as stated: two strings that normalize to
empty have similarity NaN (the code divides zero by zero), not 1.0. -/
theorem claim_C6_counterexample :
    Detectors.calculateSimilarity [] [] = JsNum.nan ∧ JsNum.nan ≠ JsNum.num 1 := by
  constructor
  · decide
  · decide

/-- Reduction lemmas for the JavaScript number operations on finite
arguments. -/
theorem jsDiv_num_num (a b : ℚ) :
    JsNum.jsDiv (JsNum.num a) (JsNum.num b) =
      if b = 0 then (if a = 0 then JsNum.nan else if 0 < a then JsNum.posInf else JsNum.negInf)
      else JsNum.num (a / b) := rfl

theorem jsSub_num_num (a b : ℚ) :
    JsNum.jsSub (JsNum.num a) (JsNum.num b) = JsNum.num (a - b) := rfl

theorem jsMul_num_num (a b : ℚ) :
    JsNum.jsMul (JsNum.num a) (JsNum.num b) = JsNum.num (a * b) := rfl

theorem jsAdd_num_num (a b : ℚ) :
    JsNum.jsAdd (JsNum.num a) (JsNum.num b) = JsNum.num (a + b) := rfl

theorem jsMax_num_num (a b : ℚ) :
    JsNum.jsMax (JsNum.num a) (JsNum.num b) = JsNum.num (max a b) := rfl

theorem jsRound_num (a : ℚ) :
    JsNum.jsRound (JsNum.num a) = JsNum.num ⌊a + 1 / 2⌋ := rfl

/-- Claim C6, as amended: except on two strings that both normalize to
empty, where the result is NaN, calculateSimilarity equals one minus the
classic Levenshtein distance of the normalized strings divided by the longer
normalized length, lies in the closed interval from 0 to 1, and is 0 when
exactly one normalized string is empty. -/
theorem claim_C6_amended (t1 t2 : Str) :
    (Detectors.normalizeText t1 = [] ∧ Detectors.normalizeText t2 = [] →
      Detectors.calculateSimilarity t1 t2 = JsNum.nan) ∧
    (¬(Detectors.normalizeText t1 = [] ∧ Detectors.normalizeText t2 = []) →
      ∃ q : ℚ,
        Detectors.calculateSimilarity t1 t2 = JsNum.num q ∧
        q = 1 - (classicLev (Detectors.normalizeText t1) (Detectors.normalizeText t2) : ℚ) /
            ((max (Detectors.normalizeText t1).length
              (Detectors.normalizeText t2).length : ℕ) : ℚ) ∧
        0 ≤ q ∧ q ≤ 1 ∧
        ((Detectors.normalizeText t1 = [] ∨ Detectors.normalizeText t2 = []) → q = 0)) := by
  constructor
  · rintro ⟨h1, h2⟩
    unfold Detectors.calculateSimilarity
    rw [h1, h2]
    decide
  · intro hne
    have hm : 0 < max (Detectors.normalizeText t1).length
        (Detectors.normalizeText t2).length := by
      by_contra h0
      push_neg at h0
      have e1 : (Detectors.normalizeText t1).length = 0 := by omega
      have e2 : (Detectors.normalizeText t2).length = 0 := by omega
      exact hne ⟨List.length_eq_zero.mp e1, List.length_eq_zero.mp e2⟩
    have hd := classicLev_le_max (Detectors.normalizeText t1) (Detectors.normalizeText t2)
    have hMne : (((max (Detectors.normalizeText t1).length
        (Detectors.normalizeText t2).length : ℕ)) : ℚ) ≠ 0 := by
      exact_mod_cast (by omega : max (Detectors.normalizeText t1).length
        (Detectors.normalizeText t2).length ≠ 0)
    have hMpos : (0 : ℚ) < ((max (Detectors.normalizeText t1).length
        (Detectors.normalizeText t2).length : ℕ) : ℚ) := by
      exact_mod_cast hm
    refine ⟨1 - (classicLev (Detectors.normalizeText t1) (Detectors.normalizeText t2) : ℚ) /
        ((max (Detectors.normalizeText t1).length
          (Detectors.normalizeText t2).length : ℕ) : ℚ), ?_, rfl, ?_, ?_, ?_⟩
    · unfold Detectors.calculateSimilarity
      rw [levenshteinDistance_eq_classic, jsDiv_num_num, ← Nat.cast_max, if_neg hMne,
        jsSub_num_num]
    · have hle : ((classicLev (Detectors.normalizeText t1) (Detectors.normalizeText t2) : ℕ) : ℚ)
          ≤ ((max (Detectors.normalizeText t1).length
            (Detectors.normalizeText t2).length : ℕ) : ℚ) := by
        exact_mod_cast hd
      have hq := div_le_one_of_le hle (le_of_lt hMpos)
      linarith
    · have hnn : (0 : ℚ) ≤ ((classicLev (Detectors.normalizeText t1)
          (Detectors.normalizeText t2) : ℕ) : ℚ) / ((max (Detectors.normalizeText t1).length
            (Detectors.normalizeText t2).length : ℕ) : ℚ) :=
        div_nonneg (by positivity) (le_of_lt hMpos)
      linarith
    · intro hcase
      rcases hcase with h1 | h2
      · have hn2 : Detectors.normalizeText t2 ≠ [] := fun h => hne ⟨h1, h⟩
        have hlen2 : 0 < (Detectors.normalizeText t2).length :=
          List.length_pos.mpr hn2
        rw [h1, classicLev_nil_left]
        simp only [List.length_nil, Nat.max_eq_right (Nat.zero_le _)]
        rw [div_self (by exact_mod_cast hlen2.ne' :
          (((Detectors.normalizeText t2).length : ℕ) : ℚ) ≠ 0)]
        norm_num
      · have hn1 : Detectors.normalizeText t1 ≠ [] := fun h => hne ⟨h, h2⟩
        have hlen1 : 0 < (Detectors.normalizeText t1).length :=
          List.length_pos.mpr hn1
        rw [h2, classicLev_nil_right]
        simp only [List.length_nil, Nat.max_eq_left (Nat.zero_le _)]
        rw [div_self (by exact_mod_cast hlen1.ne' :
          (((Detectors.normalizeText t1).length : ℕ) : ℚ) ≠ 0)]
        norm_num

/-- Witness for the amended claim C6 at concrete inputs. -/
theorem claim_C6_amended_witness :
    Detectors.calculateSimilarity [] [] = JsNum.nan ∧
    ∃ q : ℚ, Detectors.calculateSimilarity [] (("ab").data) = JsNum.num q ∧
      q = 1 - (classicLev (Detectors.normalizeText []) (Detectors.normalizeText (("ab").data)) : ℚ) /
          ((max (Detectors.normalizeText ([] : Str)).length
            (Detectors.normalizeText (("ab").data)).length : ℕ) : ℚ) ∧
      0 ≤ q ∧ q ≤ 1 ∧
      ((Detectors.normalizeText ([] : Str) = [] ∨
        Detectors.normalizeText (("ab").data) = []) → q = 0) := by
  constructor
  · exact (claim_C6_amended [] []).1 ⟨rfl, rfl⟩
  · exact (claim_C6_amended [] (("ab").data)).2 (by decide)

/-! ### Claim C5 -/

/-- Counterexample to claim C5 as stated: with zero segments and no
duplicates the score is NaN (0/0 flows through max and round), not 100. -/
theorem claim_C5_counterexample :
    (generateOriginalityReport { exScript with segments := [] } []).score = JsNum.nan ∧
    JsNum.nan ≠ JsNum.num 100 := by
  constructor
  · decide
  · decide

/-- Claim C5, as amended: with at least one segment the score is the rounded
clamp max(0, 100 − 100·distinctFlaggedTargets/totalSegments) and lies in
0..100 (the claim formula omitted only the rounding); with zero segments the
score is NaN when no duplicate is given (0/0) and 0 when some duplicate is
given (the ratio is positive infinity). -/
theorem claim_C5_amended (script : ScriptData) (duplicates : List DuplicateResult) :
    (0 < script.segments.length →
      (generateOriginalityReport script duplicates).score =
        JsNum.num ((⌊max 0 (100 -
            (jsSetSize (duplicates.map (fun d => d.target.segmentId)) : ℚ) /
              (script.segments.length : ℚ) * 100) + 1 / 2⌋ : ℤ) : ℚ) ∧
      (0 : ℤ) ≤ ⌊max 0 (100 -
            (jsSetSize (duplicates.map (fun d => d.target.segmentId)) : ℚ) /
              (script.segments.length : ℚ) * 100) + 1 / 2⌋ ∧
      ⌊max 0 (100 -
            (jsSetSize (duplicates.map (fun d => d.target.segmentId)) : ℚ) /
              (script.segments.length : ℚ) * 100) + 1 / 2⌋ ≤ 100) ∧
    (script.segments.length = 0 → duplicates = [] →
      (generateOriginalityReport script duplicates).score = JsNum.nan) ∧
    (script.segments.length = 0 → duplicates ≠ [] →
      (generateOriginalityReport script duplicates).score = JsNum.num 0) := by
  refine ⟨?_, ?_, ?_⟩
  · intro hts
    have htsne : ((script.segments.length : ℕ) : ℚ) ≠ 0 := by
      exact_mod_cast (by omega : script.segments.length ≠ 0)
    have hratio : (0 : ℚ) ≤
        (jsSetSize (duplicates.map (fun d => d.target.segmentId)) : ℚ) /
          (script.segments.length : ℚ) * 100 := by
      have h1 : (0 : ℚ) ≤ (jsSetSize (duplicates.map (fun d => d.target.segmentId)) : ℚ) := by
        positivity
      have h2 : (0 : ℚ) ≤ ((script.segments.length : ℕ) : ℚ) := by positivity
      positivity
    refine ⟨?_, ?_, ?_⟩
    · unfold generateOriginalityReport
      dsimp only
      rw [jsDiv_num_num, if_neg htsne, jsMul_num_num, jsSub_num_num, jsMax_num_num,
        jsRound_num]
    · rw [Int.le_floor]
      have := le_max_left (0 : ℚ) (100 -
        (jsSetSize (duplicates.map (fun d => d.target.segmentId)) : ℚ) /
          (script.segments.length : ℚ) * 100)
      push_cast
      linarith
    · have hx : max (0 : ℚ) (100 -
          (jsSetSize (duplicates.map (fun d => d.target.segmentId)) : ℚ) /
            (script.segments.length : ℚ) * 100) ≤ 100 := by
        apply max_le
        · norm_num
        · linarith
      have h2 : (⌊max (0 : ℚ) (100 -
          (jsSetSize (duplicates.map (fun d => d.target.segmentId)) : ℚ) /
            (script.segments.length : ℚ) * 100) + 1 / 2⌋ : ℤ) ≤ ⌊(100 : ℚ) + 1 / 2⌋ :=
        Int.floor_le_floor (by linarith)
      have h3 : (⌊(100 : ℚ) + 1 / 2⌋ : ℤ) = 100 := by
        rw [Int.floor_eq_iff]
        constructor <;> push_cast <;> norm_num
      omega
  · intro hts hdup
    subst hdup
    unfold generateOriginalityReport
    rw [hts]
    decide
  · intro hts hdup
    obtain ⟨d, rest, rfl⟩ : ∃ d rest, duplicates = d :: rest := by
      cases duplicates with
      | nil => exact absurd rfl hdup
      | cons d r => exact ⟨d, r, rfl⟩
    have hdc : 0 < jsSetSize ((d :: rest).map (fun x => x.target.segmentId)) := by
      rw [List.map_cons]
      simp [jsSetSize, jsSetList, jsSetAux]
    have hdcq : ¬((jsSetSize ((d :: rest).map (fun x => x.target.segmentId)) : ℚ) = 0) := by
      exact_mod_cast (by omega : jsSetSize ((d :: rest).map (fun x => x.target.segmentId)) ≠ 0)
    have hdcpos : (0 : ℚ) < (jsSetSize ((d :: rest).map (fun x => x.target.segmentId)) : ℚ) := by
      exact_mod_cast hdc
    unfold generateOriginalityReport
    dsimp only
    rw [hts, jsDiv_num_num]
    rw [if_pos (by push_cast; ring), if_neg hdcq, if_pos hdcpos]
    rw [show JsNum.jsMul JsNum.posInf (JsNum.num 100) = JsNum.posInf from by decide]
    rw [show JsNum.jsSub (JsNum.num 100) JsNum.posInf = JsNum.negInf from rfl]
    rw [show JsNum.jsMax (JsNum.num 0) JsNum.negInf = JsNum.num 0 from rfl]
    rw [jsRound_num]
    norm_num

/-- Witness for the amended claim C5 at concrete inputs. -/
theorem claim_C5_amended_witness :
    (generateOriginalityReport exScript []).score =
      JsNum.num ((⌊max 0 (100 -
          (jsSetSize (([] : List DuplicateResult).map (fun d => d.target.segmentId)) : ℚ) /
            (exScript.segments.length : ℚ) * 100) + 1 / 2⌋ : ℤ) : ℚ) ∧
    (generateOriginalityReport { exScript with segments := [] } []).score = JsNum.nan := by
  constructor
  · exact ((claim_C5_amended exScript []).1 (by decide)).1
  · exact (claim_C5_amended { exScript with segments := [] } []).2.1 rfl rfl

/-! ### Claim C4 -/

/-- Two findings flag the same unordered pair of segment ids. -/
def samePair (r1 r2 : DuplicateResult) : Prop :=
  (r1.source.segmentId = r2.source.segmentId ∧ r1.target.segmentId = r2.target.segmentId) ∨
  (r1.source.segmentId = r2.target.segmentId ∧ r1.target.segmentId = r2.source.segmentId)

theorem samePair_symm {r1 r2 : DuplicateResult} (h : samePair r1 r2) : samePair r2 r1 := by
  rcases h with ⟨h1, h2⟩ | ⟨h1, h2⟩
  · exact Or.inl ⟨h1.symm, h2.symm⟩
  · exact Or.inr ⟨h2.symm, h1.symm⟩

theorem deduplicateAux_keys :
    ∀ (l : List DuplicateResult) (seen : List Str) (r : DuplicateResult),
      r ∈ Detectors.deduplicateAux seen l →
      Detectors.dedupKey r ∉ seen ∧ Detectors.dedupReverseKey r ∉ seen := by
  intro l
  induction l with
  | nil => intro seen r hr; cases hr
  | cons x rest ih =>
    intro seen r hr
    unfold Detectors.deduplicateAux at hr
    by_cases hc : (Detectors.dedupKey x ∈ seen) ∨ (Detectors.dedupReverseKey x ∈ seen)
    · rw [if_pos hc] at hr
      exact ih seen r hr
    · rw [if_neg hc] at hr
      push_neg at hc
      rcases List.mem_cons.mp hr with rfl | hr2
      · exact hc
      · have h2 := ih (seen ++ [Detectors.dedupKey x]) r hr2
        constructor
        · intro hmem
          exact h2.1 (List.mem_append_left _ hmem)
        · intro hmem
          exact h2.2 (List.mem_append_left _ hmem)

theorem deduplicateAux_pairwise :
    ∀ (l : List DuplicateResult) (seen : List Str),
      List.Pairwise (fun r1 r2 => ¬ samePair r1 r2) (Detectors.deduplicateAux seen l) := by
  intro l
  induction l with
  | nil => intro seen; exact List.Pairwise.nil
  | cons x rest ih =>
    intro seen
    unfold Detectors.deduplicateAux
    by_cases hc : (Detectors.dedupKey x ∈ seen) ∨ (Detectors.dedupReverseKey x ∈ seen)
    · rw [if_pos hc]
      exact ih seen
    · rw [if_neg hc]
      refine List.Pairwise.cons ?_ (ih _)
      intro r hr hsame
      have hk := deduplicateAux_keys rest (seen ++ [Detectors.dedupKey x]) r hr
      rcases hsame with ⟨h1, h2⟩ | ⟨h1, h2⟩
      · have : Detectors.dedupKey r = Detectors.dedupKey x := by
          unfold Detectors.dedupKey
          rw [h1, h2]
        exact hk.1 (this ▸ List.mem_append_right _ (List.mem_singleton_self _))
      · have : Detectors.dedupReverseKey r = Detectors.dedupKey x := by
          unfold Detectors.dedupReverseKey Detectors.dedupKey
          rw [h1, h2]
        exact hk.2 (this ▸ List.mem_append_right _ (List.mem_singleton_self _))

theorem deduplicateAux_subset :
    ∀ (l : List DuplicateResult) (seen : List Str) (r : DuplicateResult),
      r ∈ Detectors.deduplicateAux seen l → r ∈ l := by
  intro l
  induction l with
  | nil => intro seen r hr; cases hr
  | cons x rest ih =>
    intro seen r hr
    unfold Detectors.deduplicateAux at hr
    by_cases hc : (Detectors.dedupKey x ∈ seen) ∨ (Detectors.dedupReverseKey x ∈ seen)
    · rw [if_pos hc] at hr
      exact List.mem_cons_of_mem _ (ih seen r hr)
    · rw [if_neg hc] at hr
      rcases List.mem_cons.mp hr with rfl | hr2
      · exact List.mem_cons_self _ _
      · exact List.mem_cons_of_mem _ (ih _ r hr2)

theorem lookupPair_mem :
    ∀ (m : List (Str × Str)) (k v : Str), List.lookup k m = some v → (k, v) ∈ m := by
  intro m
  induction m with
  | nil => intro k v h; cases h
  | cons e rest ih =>
    intro k v h
    rw [List.lookup] at h
    cases hb : (k == e.1) with
    | true =>
      rw [hb] at h
      cases h
      have hk : k = e.1 := eq_of_beq hb
      rw [hk]
      exact List.mem_cons_self _ _
    | false =>
      rw [hb] at h
      exact List.mem_cons_of_mem _ (ih k v h)

theorem detectExactAux_props (all : List ScriptSegment) (norm : Str → Str) (idGen : ℕ → Str)
    (hnd : (all.map ScriptSegment.id).Nodup) :
    ∀ (rest pre : List ScriptSegment) (m : List (Str × Str)) (k : ℕ),
      all = pre ++ rest →
      (∀ e ∈ m, ∃ s ∈ pre, e.2 = s.id) →
      ∀ r ∈ Detectors.detectExactAux all norm idGen m k rest,
        r.type = DupType.exact ∧ r.source.segmentId ≠ r.target.segmentId := by
  intro rest
  induction rest with
  | nil => intro pre m k hall hmap r hr; cases hr
  | cons seg rest2 ih =>
    intro pre m k hall hmap r hr
    simp only [Detectors.detectExactAux] at hr
    cases hlk : List.lookup (norm seg.content) m with
    | none =>
      rw [hlk] at hr
      refine ih (pre ++ [seg]) _ k (by rw [hall]; simp) ?_ r hr
      intro e he
      rcases List.mem_append.mp he with h1 | h1
      · obtain ⟨s, hs, heq⟩ := hmap e h1
        exact ⟨s, List.mem_append_left _ hs, heq⟩
      · rw [List.mem_singleton] at h1
        subst h1
        exact ⟨seg, List.mem_append_right _ (List.mem_singleton_self _), rfl⟩
    | some existingId =>
      rw [hlk] at hr
      dsimp only at hr
      cases hf : all.find? (fun s => decide (s.id = existingId)) with
      | none =>
        rw [hf] at hr
        exact ih (pre ++ [seg]) m k (by rw [hall]; simp)
          (fun e he => (hmap e he).imp (fun s hs => ⟨List.mem_append_left _ hs.1, hs.2⟩)) r hr
      | some existing =>
        rw [hf] at hr
        rcases List.mem_cons.mp hr with rfl | hr2
        · refine ⟨rfl, ?_⟩
          have hexid : existing.id = existingId := by
            have := List.find?_some hf
            simpa using this
          obtain ⟨s, hsmem, hseq⟩ := hmap (norm seg.content, existingId) (lookupPair_mem m _ _ hlk)
          have hseq2 : existingId = s.id := hseq
          intro hbad
          have hbad2 : seg.id = s.id := by
            rw [← hseq2, ← hexid]
            exact hbad.symm
          rw [hall] at hnd
          rw [List.map_append, List.nodup_append] at hnd
          have h1 : s.id ∈ List.map ScriptSegment.id pre := List.mem_map_of_mem _ hsmem
          have h2 : s.id ∈ List.map ScriptSegment.id (seg :: rest2) := by
            rw [← hbad2]
            exact List.mem_map_of_mem _ (List.mem_cons_self _ _)
          exact hnd.2.2 h1 h2
        · exact ih (pre ++ [seg]) m (k + 1) (by rw [hall]; simp)
            (fun e he => (hmap e he).imp (fun s hs => ⟨List.mem_append_left _ hs.1, hs.2⟩)) r hr2

theorem allPairs_map_ne {α β : Type} (f : α → β) :
    ∀ l : List α, (l.map f).Nodup → ∀ p ∈ Detectors.allPairs l, f p.1 ≠ f p.2 := by
  intro l
  induction l with
  | nil => intro _ p hp; cases hp
  | cons x xs ih =>
    intro hnd p hp
    rw [List.map_cons, List.nodup_cons] at hnd
    unfold Detectors.allPairs at hp
    rcases List.mem_append.mp hp with h1 | h1
    · obtain ⟨y, hy, rfl⟩ := List.mem_map.mp h1
      intro hbad
      exact hnd.1 (hbad ▸ List.mem_map_of_mem f hy)
    · exact ih hnd.2 p h1

theorem enum_map_snd_id (segments : List ScriptSegment) :
    ((segments.enum).map (fun q => q.2.id)) = segments.map ScriptSegment.id := by
  rw [show (fun q : ℕ × ScriptSegment => q.2.id)
        = ScriptSegment.id ∘ Prod.snd from rfl]
  rw [← List.map_map, List.enum_map_snd]

theorem detectSemantic_props (segments : List ScriptSegment) (threshold : ℚ)
    (calcSim : Str → Str → JsNum) (now : Str)
    (hnd : (segments.map ScriptSegment.id).Nodup) :
    ∀ r ∈ Detectors.detectSemanticDuplicates segments threshold calcSim now,
      r.type = DupType.similar ∧ r.source.segmentId ≠ r.target.segmentId := by
  intro r hr
  obtain ⟨p, hp, hsome⟩ := List.mem_filterMap.mp hr
  by_cases hc : JsNum.jsGe (calcSim p.1.2.content p.2.2.content) threshold = true
  · rw [if_pos hc] at hsome
    cases hsome
    refine ⟨rfl, ?_⟩
    have := allPairs_map_ne (fun q : ℕ × ScriptSegment => q.2.id) segments.enum
      (by rw [enum_map_snd_id]; exact hnd) p hp
    exact this
  · rw [if_neg hc] at hsome
    cases hsome

theorem detectStructural_props (segments : List ScriptSegment) (threshold : ℚ)
    (calcSim : Str → Str → JsNum) (now : Str)
    (hnd : (segments.map ScriptSegment.id).Nodup) :
    ∀ r ∈ Detectors.detectStructuralDuplicates segments threshold calcSim now,
      r.type = DupType.similar ∧ r.source.segmentId ≠ r.target.segmentId := by
  intro r hr
  obtain ⟨p, hp, hsome⟩ := List.mem_filterMap.mp hr
  by_cases hc : JsNum.jsGe (calcSim p.1.2.content p.2.2.content) threshold = true
  · rw [if_pos hc] at hsome
    cases hsome
    refine ⟨rfl, ?_⟩
    have := allPairs_map_ne (fun q : ℕ × ScriptSegment => q.2.id) segments.enum
      (by rw [enum_map_snd_id]; exact hnd) p hp
    exact this
  · rw [if_neg hc] at hsome
    cases hsome

theorem detectTemplateAux_props (idGen : ℕ → Str) :
    ∀ (segs : List ScriptSegment) (k : ℕ) (r : DuplicateResult),
      r ∈ Detectors.detectTemplateAux idGen k segs →
      r.type = DupType.template ∧ r.source.segmentId = r.target.segmentId := by
  intro segs
  induction segs with
  | nil => intro k r hr; cases hr
  | cons seg rest ih =>
    intro k r hr
    unfold Detectors.detectTemplateAux at hr
    rcases List.mem_append.mp hr with h1 | h1
    · obtain ⟨h, _, rfl⟩ := List.mem_map.mp h1
      exact ⟨rfl, rfl⟩
    · exact ih _ r h1

theorem mem_sortBySimilarityDesc {r : DuplicateResult} {l : List DuplicateResult} :
    r ∈ sortBySimilarityDesc l ↔ r ∈ l :=
  (List.perm_insertionSort _ l).mem_iff

theorem pairwise_sortBySimilarityDesc {l : List DuplicateResult}
    (h : List.Pairwise (fun r1 r2 => ¬ samePair r1 r2) l) :
    List.Pairwise (fun r1 r2 => ¬ samePair r1 r2) (sortBySimilarityDesc l) :=
  ((List.perm_insertionSort _ l).pairwise_iff
    (fun hns => fun hs => hns (samePair_symm hs))).mpr h

/-- Claim C4, as amended: under pairwise-distinct segment ids, every finding
of the exact, semantic and structural strategies relates two distinct
segments, every template finding flags a segment against itself (the claim
wrongly asserted no self-pairs at all), and after deduplication at most one
finding survives for each unordered pair of segment ids. -/
theorem claim_C4_amended (cfg : DedupConfig) (script : ScriptData)
    (exactIds tmplIds : ℕ → Str) (now : Str)
    (hnd : (script.segments.map ScriptSegment.id).Nodup) :
    (∀ r ∈ detectDuplicates cfg script exactIds tmplIds now,
      (r.type = DupType.template → r.source.segmentId = r.target.segmentId) ∧
      (r.type ≠ DupType.template → r.source.segmentId ≠ r.target.segmentId)) ∧
    List.Pairwise (fun r1 r2 => ¬ samePair r1 r2)
      (detectDuplicates cfg script exactIds tmplIds now) := by
  constructor
  · intro r hr
    unfold detectDuplicates at hr
    have hr2 := mem_sortBySimilarityDesc.mp hr
    have hr3 := deduplicateAux_subset _ [] r hr2
    have hcases : (r.type = DupType.exact ∧ r.source.segmentId ≠ r.target.segmentId) ∨
        (r.type = DupType.similar ∧ r.source.segmentId ≠ r.target.segmentId) ∨
        (r.type = DupType.template ∧ r.source.segmentId = r.target.segmentId) := by
      rcases List.mem_append.mp hr3 with h1 | h4
      · rcases List.mem_append.mp h1 with h2 | h3
        · rcases List.mem_append.mp h2 with h5 | h6
          · by_cases he : DedupStrategy.exact ∈ cfg.strategies
            · rw [if_pos he] at h5
              exact Or.inl (detectExactAux_props script.segments Detectors.normalizeText
                exactIds hnd script.segments [] [] 0 rfl (by intro e he2; cases he2) r h5)
            · rw [if_neg he] at h5; cases h5
          · by_cases hs : DedupStrategy.semantic ∈ cfg.strategies
            · rw [if_pos hs] at h6
              exact Or.inr (Or.inl (detectSemantic_props script.segments cfg.threshold
                Detectors.calculateSimilarity now hnd r h6))
            · rw [if_neg hs] at h6; cases h6
        · by_cases ht : DedupStrategy.template ∈ cfg.strategies
          · rw [if_pos ht] at h3
            exact Or.inr (Or.inr (detectTemplateAux_props tmplIds script.segments 0 r h3))
          · rw [if_neg ht] at h3; cases h3
      · by_cases hst : DedupStrategy.structural ∈ cfg.strategies
        · rw [if_pos hst] at h4
          exact Or.inr (Or.inl (detectStructural_props script.segments cfg.threshold
            Detectors.calculateStructureSimilarity now hnd r h4))
        · rw [if_neg hst] at h4; cases h4
    rcases hcases with ⟨hty, hne⟩ | ⟨hty, hne⟩ | ⟨hty, heq⟩
    · exact ⟨fun hbad => absurd (hty ▸ hbad) (by rw [hty] at hbad; cases hbad), fun _ => hne⟩
    · exact ⟨fun hbad => absurd (hty ▸ hbad) (by rw [hty] at hbad; cases hbad), fun _ => hne⟩
    · exact ⟨fun _ => heq, fun hbad => absurd hty hbad⟩
  · unfold detectDuplicates
    exact pairwise_sortBySimilarityDesc (deduplicateAux_pairwise _ [])

/-- A one-segment script whose segment content contains a common intro
phrase, so the template detector flags the segment against itself. -/
def exIntroSeg : ScriptSegment :=
  { id := ("a1").data
    startTime := 0
    endTime := 1
    content := ("大家好，欢迎来到本期视频").data
    type := SegType.narration }

/-- The example script around exIntroSeg. -/
def exIntroScript : ScriptData :=
  { id := ("sc2").data
    content := ("大家好，欢迎来到本期视频").data
    segments := [exIntroSeg]
    updatedAt := ("t0").data }

/-- A fixed id supply for the duplicate-result generators. -/
def exC4Ids : ℕ → Str := fun n => (Nat.repr n).data

/-- Counterexample to claim C4 as stated: with the default configuration,
a script with a single segment containing a common intro phrase yields a
template finding whose source and target segment ids are both that segment,
so detectDuplicates does report a segment as a duplicate of itself. -/
theorem claim_C4_counterexample :
    (detectDuplicates defaultDedupConfig exIntroScript exC4Ids exC4Ids (("now").data)).map
        (fun r => (r.source.segmentId, r.target.segmentId, r.type))
      = [((("a1").data), (("a1").data), DupType.template)] := by
  decide

/-! ### Claim C1 -/

/-- The result record built by the history scan for the matching stored
fingerprint (mirror of the early-return record inside checkUniqueness). -/
def firstMatchResult (cfg : Uniqueness.UniquenessConfig)
    (fingerprint existingFp : Uniqueness.ContentFingerprint) :
    Uniqueness.UniquenessCheckResult :=
  { isUnique := false
    similarity := Uniqueness.calculateFingerprintSimilarity fingerprint existingFp
    matchedScript := some ⟨existingFp.scriptId, ("历史脚本").data, existingFp.createdAt⟩
    differences := Uniqueness.findDifferences fingerprint existingFp
    suggestions := Uniqueness.generateUniquenessSuggestions
      (Uniqueness.calculateFingerprintSimilarity fingerprint existingFp) }

/-- The scan condition of checkUniqueness: the stored fingerprint kv reaches
the configured similarity threshold against the fingerprint fp. -/
def reachesThreshold (cfg : Uniqueness.UniquenessConfig)
    (fp : Uniqueness.ContentFingerprint) (kv : Str × Uniqueness.ContentFingerprint) :
    Bool :=
  JsNum.jsGe (Uniqueness.calculateFingerprintSimilarity fp kv.2) cfg.similarityThreshold

theorem checkUniquenessScan_of_none (cfg : Uniqueness.UniquenessConfig)
    (fp : Uniqueness.ContentFingerprint) :
    ∀ fps : Uniqueness.FpMap,
      fps.find? (reachesThreshold cfg fp) = none →
      Uniqueness.checkUniquenessScan cfg fp fps = Uniqueness.uniqueResult := by
  intro fps
  induction fps with
  | nil => intro _; rfl
  | cons kv0 rest ih =>
    obtain ⟨k, v⟩ := kv0
    intro h
    cases hp : reachesThreshold cfg fp (k, v) with
    | true =>
      rw [List.find?_cons_of_pos _ hp] at h
      cases h
    | false =>
      have hnp : ¬ (reachesThreshold cfg fp (k, v) = true) := by
        rw [hp]
        exact Bool.false_ne_true
      rw [List.find?_cons_of_neg _ hnp] at h
      unfold Uniqueness.checkUniquenessScan
      rw [if_neg (show ¬ (JsNum.jsGe (Uniqueness.calculateFingerprintSimilarity fp v)
        cfg.similarityThreshold = true) from hnp)]
      exact ih h

theorem checkUniquenessScan_of_some (cfg : Uniqueness.UniquenessConfig)
    (fp : Uniqueness.ContentFingerprint) :
    ∀ (fps : Uniqueness.FpMap) (kv : Str × Uniqueness.ContentFingerprint),
      fps.find? (reachesThreshold cfg fp) = some kv →
      Uniqueness.checkUniquenessScan cfg fp fps = firstMatchResult cfg fp kv.2 := by
  intro fps
  induction fps with
  | nil => intro kv h; cases h
  | cons kv0 rest ih =>
    obtain ⟨k, v⟩ := kv0
    intro kv h
    cases hp : reachesThreshold cfg fp (k, v) with
    | true =>
      rw [List.find?_cons_of_pos _ hp] at h
      injection h with h2
      subst h2
      unfold Uniqueness.checkUniquenessScan
      rw [if_pos (show JsNum.jsGe (Uniqueness.calculateFingerprintSimilarity fp v)
        cfg.similarityThreshold = true from hp)]
      rfl
    | false =>
      have hnp : ¬ (reachesThreshold cfg fp (k, v) = true) := by
        rw [hp]
        exact Bool.false_ne_true
      rw [List.find?_cons_of_neg _ hnp] at h
      unfold Uniqueness.checkUniquenessScan
      rw [if_neg (show ¬ (JsNum.jsGe (Uniqueness.calculateFingerprintSimilarity fp v)
        cfg.similarityThreshold = true) from hnp)]
      exact ih kv h

/-- Claim C1, as amended: with history checking on, checkUniqueness returns
isUnique true exactly when no stored fingerprint reaches the similarity
threshold; otherwise the returned match is the FIRST stored fingerprint in
insertion order whose similarity reaches the threshold (the claim wrongly
said the stored fingerprint of highest similarity). -/
theorem claim_C1_amended (cfg : Uniqueness.UniquenessConfig) (fps : Uniqueness.FpMap)
    (script : ScriptData) (fid fca : Str) (hch : cfg.checkHistory = true) :
    ((Uniqueness.checkUniqueness cfg fps script fid fca).isUnique = true ↔
      ∀ kv ∈ fps,
        reachesThreshold cfg (Uniqueness.generateFingerprint script fid fca) kv
          = false) ∧
    ∀ kv : Str × Uniqueness.ContentFingerprint,
      fps.find? (reachesThreshold cfg (Uniqueness.generateFingerprint script fid fca))
        = some kv →
      Uniqueness.checkUniqueness cfg fps script fid fca =
        firstMatchResult cfg (Uniqueness.generateFingerprint script fid fca) kv.2 := by
  have hcu : Uniqueness.checkUniqueness cfg fps script fid fca =
      Uniqueness.checkUniquenessScan cfg (Uniqueness.generateFingerprint script fid fca)
        fps := by
    unfold Uniqueness.checkUniqueness
    rw [if_pos hch]
  constructor
  · rw [hcu]
    constructor
    · intro hu kv hmem
      cases hb : reachesThreshold cfg (Uniqueness.generateFingerprint script fid fca)
          kv with
      | false => rfl
      | true =>
        exfalso
        cases hf : fps.find?
            (reachesThreshold cfg (Uniqueness.generateFingerprint script fid fca)) with
        | none => exact (List.find?_eq_none.mp hf kv hmem) hb
        | some kv2 =>
          have hscan := checkUniquenessScan_of_some cfg
            (Uniqueness.generateFingerprint script fid fca) fps kv2 hf
          rw [hscan] at hu
          exact Bool.false_ne_true hu
    · intro hall
      have hfnone : fps.find?
          (reachesThreshold cfg (Uniqueness.generateFingerprint script fid fca))
          = none := by
        refine List.find?_eq_none.mpr ?_
        intro x hx hb
        rw [hall x hx] at hb
        exact Bool.false_ne_true hb
      rw [checkUniquenessScan_of_none cfg _ fps hfnone]
      rfl
  · intro kv hf
    rw [hcu]
    exact checkUniquenessScan_of_some cfg _ fps kv hf

/-- Witness instantiating claim_C1_amended on an empty history. -/
theorem claim_C1_amended_witness :
    Uniqueness.defaultUniquenessConfig.checkHistory = true ∧
    ((Uniqueness.checkUniqueness Uniqueness.defaultUniquenessConfig [] exScript
        (("f1").data) (("cf").data)).isUnique = true ↔
      ∀ kv ∈ ([] : Uniqueness.FpMap),
        reachesThreshold Uniqueness.defaultUniquenessConfig
          (Uniqueness.generateFingerprint exScript (("f1").data) (("cf").data)) kv
          = false) :=
  ⟨rfl, (claim_C1_amended Uniqueness.defaultUniquenessConfig [] exScript (("f1").data)
    (("cf").data) rfl).1⟩

/-- A stored fingerprint of a script A that only partially matches the
example script: a different hash, half its keywords and the same structure
signature, so its similarity to the example script is 0.7. -/
def exFpA : Uniqueness.ContentFingerprint :=
  { id := ("k1").data
    scriptId := ("A").data
    hash := ("zz").data
    keywords := [("hello").data]
    structureSig := Uniqueness.generateStructureSignature exScript
    createdAt := ("ca").data }

/-- Counterexample to claim C1 as stated: with the default configuration and
a history storing first fingerprint exFpA (similarity 0.7 to the example
script) and then exFpB (hash-equal, similarity 1), checkUniqueness returns
the match for script A at similarity 0.7 even though the stored fingerprint
of script B has the strictly higher similarity 1 — the first match at or
above the threshold is returned, not the best one. -/
theorem claim_C1_counterexample :
    (Uniqueness.checkUniqueness Uniqueness.defaultUniquenessConfig
        [((("k1").data), exFpA), ((("k2").data), exFpB)] exScript (("f1").data)
        (("cf").data)).matchedScript =
      some ⟨(("A").data), ("历史脚本").data, (("ca").data)⟩ ∧
    (Uniqueness.checkUniqueness Uniqueness.defaultUniquenessConfig
        [((("k1").data), exFpA), ((("k2").data), exFpB)] exScript (("f1").data)
        (("cf").data)).similarity = JsNum.num (7 / 10) ∧
    Uniqueness.calculateFingerprintSimilarity
      (Uniqueness.generateFingerprint exScript (("f1").data) (("cf").data)) exFpB =
      JsNum.num 1 ∧
    exFpB.scriptId = (("B").data) ∧ (7 / 10 : ℚ) < 1 := by
  have hkw1 : Uniqueness.calculateKeywordSimilarity
      (Uniqueness.generateFingerprint exScript (("f1").data) (("cf").data)).keywords
      exFpA.keywords =
      JsNum.jsDiv (JsNum.num ((1 : ℕ) : ℚ)) (JsNum.num ((2 : ℕ) : ℚ)) := rfl
  have hkwA : Uniqueness.calculateKeywordSimilarity
      (Uniqueness.generateFingerprint exScript (("f1").data) (("cf").data)).keywords
      exFpA.keywords = JsNum.num (1 / 2) := by
    rw [hkw1, jsDiv_num_num, if_neg (by norm_num)]
    norm_num
  have hst1 : Uniqueness.calculateStructureSimilarity
      (Uniqueness.generateFingerprint exScript (("f1").data) (("cf").data)).structureSig
      exFpA.structureSig =
      JsNum.jsDiv (JsNum.num ((1 : ℕ) : ℚ)) (JsNum.num ((1 : ℕ) : ℚ)) := rfl
  have hstA : Uniqueness.calculateStructureSimilarity
      (Uniqueness.generateFingerprint exScript (("f1").data) (("cf").data)).structureSig
      exFpA.structureSig = JsNum.num 1 := by
    rw [hst1, jsDiv_num_num, if_neg (by norm_num)]
    norm_num
  have hhA : ¬ ((Uniqueness.generateFingerprint exScript (("f1").data)
      (("cf").data)).hash = exFpA.hash) := by decide
  have hsimA : Uniqueness.calculateFingerprintSimilarity
      (Uniqueness.generateFingerprint exScript (("f1").data) (("cf").data)) exFpA =
      JsNum.num (7 / 10) := by
    unfold Uniqueness.calculateFingerprintSimilarity
    rw [if_neg hhA, hkwA, hstA, jsMul_num_num, jsMul_num_num, jsAdd_num_num]
    have harith : (1 / 2 : ℚ) * (6 / 10) + 1 * (4 / 10) = 7 / 10 := by norm_num
    rw [harith]
  have hsimB : Uniqueness.calculateFingerprintSimilarity
      (Uniqueness.generateFingerprint exScript (("f1").data) (("cf").data)) exFpB =
      JsNum.num 1 := by decide
  have hge : reachesThreshold Uniqueness.defaultUniquenessConfig
      (Uniqueness.generateFingerprint exScript (("f1").data) (("cf").data))
      ((("k1").data), exFpA) = true := by
    unfold reachesThreshold
    rw [hsimA]
    simp only [JsNum.jsGe, decide_eq_true_eq, Uniqueness.defaultUniquenessConfig]
    norm_num
  have hfind : ([((("k1").data), exFpA), ((("k2").data), exFpB)] :
      Uniqueness.FpMap).find? (reachesThreshold Uniqueness.defaultUniquenessConfig
        (Uniqueness.generateFingerprint exScript (("f1").data) (("cf").data))) =
      some ((("k1").data), exFpA) := List.find?_cons_of_pos _ hge
  have hres : Uniqueness.checkUniqueness Uniqueness.defaultUniquenessConfig
      [((("k1").data), exFpA), ((("k2").data), exFpB)] exScript (("f1").data)
      (("cf").data) =
      firstMatchResult Uniqueness.defaultUniquenessConfig
        (Uniqueness.generateFingerprint exScript (("f1").data) (("cf").data)) exFpA := by
    unfold Uniqueness.checkUniqueness
    rw [if_pos (show Uniqueness.defaultUniquenessConfig.checkHistory = true from rfl)]
    exact checkUniquenessScan_of_some Uniqueness.defaultUniquenessConfig _ _ _ hfind
  refine ⟨?_, ?_, hsimB, rfl, by norm_num⟩
  · rw [hres]
    rfl
  · rw [hres]
    exact hsimA

/-- Witness instantiating claim_C4_amended at a concrete script. -/
theorem claim_C4_amended_witness :
    ((exIntroScript.segments.map ScriptSegment.id).Nodup) ∧
    List.Pairwise (fun r1 r2 => ¬ samePair r1 r2)
      (detectDuplicates defaultDedupConfig exIntroScript exC4Ids exC4Ids (("now").data)) :=
  ⟨by decide,
   (claim_C4_amended defaultDedupConfig exIntroScript exC4Ids exC4Ids (("now").data)
     (by decide)).2⟩

end CineCraft
